import Mathlib

/-!
# mstreamer: V4L2 buffer ring and streaming loop

A shallow embedding of `src/mstream.c`.  The process talks to its surroundings (the
capture device, the allocator, the clock, the display library, the signal source)
through an `Env`: one function per external call, threading an environment state.
Every external call of interest is appended to a trace in the `World`, so that
statements about "which requests were issued, in which order" are statements about
that trace.  Process termination (`exit`) is an `Outcome`, not a Lean exception.
-/

set_option linter.unusedVariables false

/-! ## Constants of the system headers -/

/-- Buffer type of a video capture stream (`linux/videodev2.h`). -/
def V4L2_BUF_TYPE_VIDEO_CAPTURE : Nat := 1
/-- Memory-mapped buffers (`linux/videodev2.h`). -/
def V4L2_MEMORY_MMAP : Nat := 1
/-- Motion-JPEG pixel format, `v4l2_fourcc('M','J','P','G')`. -/
def V4L2_PIX_FMT_MJPEG : Nat := 0x47504A4D
/-- Capability bit of a video capture device. -/
def V4L2_CAP_VIDEO_CAPTURE : Nat := 1
/-- Errno of an interrupted system call. -/
def EINTR : Int := 4
/-- Signal number of the keyboard interrupt. -/
def SIGINT : Int := 2
/-- Failure status of `exit`. -/
def EXIT_FAILURE : Int := 1
/-- Page protection used for the mappings: `PROT_READ | PROT_WRITE`. -/
def PROT_READ_WRITE : Nat := 3
/-- Mapping flag `MAP_SHARED`. -/
def MAP_SHARED : Nat := 1

/-! ## Data structures -/

/-- The fields of `struct v4l2_buffer` the program reads or writes. -/
structure v4l2_buffer where
  index : Nat
  type : Nat
  memory : Nat
  length : Nat
  offset : Nat
  deriving DecidableEq, Repr

/-- The fields of `struct v4l2_capability` the program reads. -/
structure v4l2_capability where
  capabilities : Nat
  deriving DecidableEq, Repr

/-- The fields of `struct v4l2_format` the program writes. -/
structure v4l2_format where
  type : Nat
  pixelformat : Nat
  width : Int
  height : Int
  deriving DecidableEq, Repr

/-- The fields of `struct v4l2_streamparm` the program writes. -/
structure v4l2_streamparm where
  type : Nat
  numerator : Int
  denominator : Int
  deriving DecidableEq, Repr

/-- The fields of `struct v4l2_requestbuffers`. -/
structure v4l2_requestbuffers where
  type : Nat
  memory : Nat
  count : Nat
  deriving DecidableEq, Repr

/-- One entry of the ring, `buffer_t`: the device descriptor, the mapped address and the
mapped length. -/
structure buffer_t where
  info : v4l2_buffer
  buffer : Nat
  length : Nat
  deriving DecidableEq, Repr

/-- Throughput counters, `stats_t`. -/
structure stats_t where
  frames : Nat
  timeframes : Nat
  begintime : Int
  lastupdate : Int
  deriving DecidableEq, Repr

/-- The program state, `stream_t`.  Pointers to display objects are handles, `0` is `NULL`;
`buffers` is the array allocated by `calloc` (empty before it). -/
structure stream_t where
  fd : Int
  width : Int
  height : Int
  fps : Int
  cap : v4l2_capability
  format : v4l2_format
  parm : v4l2_streamparm
  bufrequest : v4l2_requestbuffers
  bufferinfo : v4l2_buffer
  buftype : Int
  buffers : List buffer_t
  bufsize : Nat
  window : Nat
  rwops : Nat
  image : Nat
  render : Nat
  texture : Nat
  stats : stats_t
  deriving DecidableEq, Repr

/-- Assignment to `buffers[i]`. -/
def stream_t.put (s : stream_t) (i : Nat) (b : buffer_t) : stream_t :=
  { s with buffers := s.buffers.set i b }

/-- Reply of a `VIDIOC_DQBUF` request: the descriptor written back by the driver, or the
errno of a failed call. -/
inductive DqReply where
  | ok (info : v4l2_buffer)
  | fail (errno : Int)
  deriving DecidableEq, Repr

/-- Handles produced by the display calls of one delivery (lines 255-269); a `0` handle is a
`NULL` result, that is a frame that failed to decode or to render. -/
structure Rendered where
  rwops : Nat
  image : Nat
  render : Nat
  texture : Nat
  deriving DecidableEq, Repr

/-- External calls recorded in the trace. -/
inductive Event where
  | reqbufs (req : v4l2_requestbuffers) (reply : Option v4l2_requestbuffers)
  | querybuf (req : v4l2_buffer) (reply : Option v4l2_buffer)
  | mmap (length : Nat) (offset : Nat) (addr : Option Nat)
  | streamon (type : Nat) (ok : Bool)
  | qbuf (req : v4l2_buffer) (ok : Bool)
  | dqbuf (req : v4l2_buffer) (reply : DqReply)
  | frame (addr : Nat) (length : Nat)
  | report (elapsed : Int) (frames : Nat) (fps : Nat)
  | signal (signo : Int)
  | streamoff (type : Int) (ok : Bool)
  | munmap (addr : Nat) (length : Nat)
  | perror (str : String)
  deriving DecidableEq, Repr

/-- The surroundings of the process: one function per external call, over an environment
state `σ`.  An `Option` reply of `none`, or a `Bool` reply of `false`, is a call that
returned an error (`ioctl < 0`, `MAP_FAILED`, `NULL`). -/
structure Env (σ : Type) where
  time : σ → σ × Int
  open_video : σ → σ × Int
  ioctl_querycap : σ → v4l2_capability → σ × Option v4l2_capability
  ioctl_s_fmt : σ → v4l2_format → σ × Option v4l2_format
  ioctl_g_parm : σ → v4l2_streamparm → σ × Option v4l2_streamparm
  ioctl_s_parm : σ → v4l2_streamparm → σ × Option v4l2_streamparm
  ioctl_reqbufs : σ → v4l2_requestbuffers → σ × Option v4l2_requestbuffers
  calloc : σ → Nat → σ × Bool
  ioctl_querybuf : σ → v4l2_buffer → σ × Option v4l2_buffer
  mmap : σ → Nat → Nat → Nat → Int → Nat → σ × Option Nat
  memset : σ → Nat → Nat → σ
  ioctl_streamon : σ → Nat → σ × Bool
  ioctl_qbuf : σ → v4l2_buffer → σ × Option v4l2_buffer
  ioctl_dqbuf : σ → v4l2_buffer → σ × DqReply
  consume : σ → Nat → Nat → Nat → σ × Rendered
  signals : σ → σ × List Int
  create_window : σ → Int → Int → σ × Nat
  sigaction : σ → Int → σ × Bool
  ioctl_streamoff : σ → Int → σ × Bool
  munmap : σ → Nat → Nat → σ
  close : σ → Int → σ

/-- The state of a run: the environment, the trace of external calls so far, and the global
variable `global_running`. -/
structure World (σ : Type) where
  dev : σ
  trace : List Event
  global_running : Int

/-- How a piece of the program ends: it returns a value, the process exits with a status,
it runs into undefined behaviour (an array access outside `buffers`), or the model's fuel
for the unbounded `while` of `main` is used up. -/
inductive Outcome (σ : Type) (α : Type) where
  | ret (w : World σ) (a : α)
  | exit (w : World σ) (status : Int)
  | fault (w : World σ)
  | nofuel (w : World σ)

/-- The world at the end of a piece of the program. -/
def Outcome.world {σ α : Type} : Outcome σ α → World σ
  | .ret w _ => w
  | .exit w _ => w
  | .fault w => w
  | .nofuel w => w

/-- Append one event to the trace and install the new environment state. -/
def World.step {σ : Type} (w : World σ) (d : σ) (e : Event) : World σ :=
  { w with dev := d, trace := w.trace ++ [e] }

/-- The world after the `perror(str)` of `diep`. -/
def diep_world {σ : Type} (str : String) (w : World σ) : World σ :=
  { w with trace := w.trace ++ [Event.perror str] }

/-- Source `diep`: `perror(str); exit(EXIT_FAILURE)`. -/
def diep {σ α : Type} (str : String) (w : World σ) : Outcome σ α :=
  .exit (diep_world str w) EXIT_FAILURE

/-- Source `sighandler`: only `SIGINT` clears `global_running`. -/
def sighandler {σ : Type} (signal : Int) (w : World σ) : World σ :=
  let w1 := { w with trace := w.trace ++ [Event.signal signal] }
  if signal = SIGINT then { w1 with global_running := 0 } else w1

/-- Asynchronous delivery of signals: the handler runs once for each signal the
environment delivered while the process was inside the preceding external call. -/
def handle_signals {σ : Type} (env : Env σ) (w : World σ) : World σ :=
  let r := env.signals w.dev
  r.2.foldl (fun acc signo => sighandler signo acc) { w with dev := r.1 }

/-- Source `statistics_update_frame`.  The counters are `size_t`; `time(NULL)` is read
once for `elapsed`, once for the comparison, and once more when a report is printed. -/
def statistics_update_frame {σ : Type} (env : Env σ) (w : World σ) (s : stream_t) :
    World σ × stream_t :=
  let st1 : stats_t := { s.stats with
    frames := (s.stats.frames + 1) % 2 ^ 64,
    timeframes := (s.stats.timeframes + 1) % 2 ^ 64 }
  let t1 := env.time w.dev
  let elapsed := t1.2 - st1.begintime
  let t2 := env.time t1.1
  if st1.lastupdate ≠ t2.2 then
    let fps := st1.timeframes
    let t3 := env.time t2.1
    ({ w with dev := t3.1, trace := w.trace ++ [Event.report elapsed st1.frames fps] },
     { s with stats := { st1 with timeframes := 0, lastupdate := t3.2 } })
  else
    ({ w with dev := t2.1 }, { s with stats := st1 })

/-- Result of one iteration of the `for` loop of `streaming`: go on with the next
position, `return 1`, leave the process, or undefined behaviour. -/
inductive Step (σ : Type) where
  | next (w : World σ) (s : stream_t)
  | ret1 (w : World σ) (s : stream_t)
  | exit (w : World σ) (status : Int)
  | fault (w : World σ)

/-- Line 248: `ioctl(fd, VIDIOC_DQBUF, &buffers[i].info)`, a blocking call during which
signals may be handled.  The reply is what the driver wrote into `buffers[i].info`. -/
def dequeue {σ : Type} (env : Env σ) (w : World σ) (b : buffer_t) : World σ × DqReply :=
  let r := env.ioctl_dqbuf w.dev b.info
  (handle_signals env (w.step r.1 (Event.dqbuf b.info r.2)), r.2)

/-- Lines 255-269: the frame view `(buffers[i].buffer, buffers[i].length)` is handed to the
display calls; their results are stored and never tested.  Signals may be handled
meanwhile. -/
def deliver {σ : Type} (env : Env σ) (w : World σ) (s : stream_t) (b : buffer_t) :
    World σ × stream_t :=
  let c := env.consume w.dev s.window b.buffer b.length
  (handle_signals env (w.step c.1 (Event.frame b.buffer b.length)),
   { s with rwops := c.2.rwops, image := c.2.image, render := c.2.render,
            texture := c.2.texture })

/-- Line 272: `ioctl(fd, VIDIOC_QBUF, &buffers[i].info)`. -/
def enqueue {σ : Type} (env : Env σ) (w : World σ) (info : v4l2_buffer) :
    World σ × Option v4l2_buffer :=
  let q := env.ioctl_qbuf w.dev info
  (w.step q.1 (Event.qbuf info q.2.isSome), q.2)

/-- The world at the end of an iteration. -/
def Step.world {σ : Type} : Step σ → World σ
  | .next w _ => w
  | .ret1 w _ => w
  | .exit w _ => w
  | .fault w => w

/-- The body of the `for` loop of `streaming` at position `i` (lines 247-275). -/
def streaming_body {σ : Type} (env : Env σ) (i : Nat) (w : World σ) (s : stream_t) : Step σ :=
  match s.buffers[i]? with
  | none => .fault w
  | some b =>
    let d := dequeue env w b
    match d.2 with
    | .fail errno =>
      -- if(errno != EINTR) diep("VIDIOC_QBUF"); return 1;
      if errno ≠ EINTR then .exit (diep_world "VIDIOC_QBUF" d.1) EXIT_FAILURE
      else .ret1 d.1 s
    | .ok info =>
      -- the driver wrote the dequeued descriptor into buffers[i].info
      let b1 : buffer_t := { b with info := info }
      let v := deliver env d.1 (s.put i b1) b1
      let q := enqueue env v.1 b1.info
      match q.2 with
      | none => .exit (diep_world "VIDIOC_QBUF" q.1) EXIT_FAILURE
      | some info2 =>
        let u := statistics_update_frame env q.1 (v.2.put i { b1 with info := info2 })
        .next u.1 u.2

/-- The `for` loop of `streaming`: `n` iterations remain, the next one at position `i`.
The body never changes `bufsize`, so `n = bufsize - i` throughout. -/
def streaming_loop {σ : Type} (env : Env σ) : Nat → Nat → World σ → stream_t →
    Outcome σ (stream_t × Int)
  | 0, _, w, s => .ret w (s, 0)
  | n + 1, i, w, s =>
    match streaming_body env i w s with
    | .next w1 s1 => streaming_loop env n (i + 1) w1 s1
    | .ret1 w1 s1 => .ret w1 (s1, 1)
    | .exit w1 c => .exit w1 c
    | .fault w1 => .fault w1

/-- Source `streaming`. -/
def streaming {σ : Type} (env : Env σ) (w : World σ) (s : stream_t) :
    Outcome σ (stream_t × Int) :=
  streaming_loop env s.bufsize 0 w s

/-- A zero-filled `buffer_t`, as `calloc` returns it. -/
def buffer_zero : buffer_t :=
  { info := { index := 0, type := 0, memory := 0, length := 0, offset := 0 },
    buffer := 0, length := 0 }

/-- Lines 175-176: `buffers[i].info = bufferinfo; buffers[i].info.index = i`, the index
being a `__u32`. -/
def indexed (bufferinfo : v4l2_buffer) (i : Nat) : v4l2_buffer :=
  { bufferinfo with index := i % 2 ^ 32 }

/-- Line 178: `ioctl(fd, VIDIOC_QUERYBUF, &buffers[i].info)`. -/
def query_buffer {σ : Type} (env : Env σ) (w : World σ) (info : v4l2_buffer) :
    World σ × Option v4l2_buffer :=
  let r := env.ioctl_querybuf w.dev info
  (w.step r.1 (Event.querybuf info r.2), r.2)

/-- Line 187: `mmap(NULL, length, PROT_READ | PROT_WRITE, MAP_SHARED, fd, offset)`. -/
def map_buffer {σ : Type} (env : Env σ) (w : World σ) (fd : Int) (length offset : Nat) :
    World σ × Option Nat :=
  let m := env.mmap w.dev length PROT_READ_WRITE MAP_SHARED fd offset
  (w.step m.1 (Event.mmap length offset m.2), m.2)

/-- Line 191: `memset(buffer, 0x00, length)`. -/
def zero_buffer {σ : Type} (env : Env σ) (w : World σ) (addr length : Nat) : World σ :=
  { w with dev := env.memset w.dev addr length }

/-- Line 196: `ioctl(fd, VIDIOC_STREAMON, &buffers[i].info.type)`. -/
def stream_on {σ : Type} (env : Env σ) (w : World σ) (type : Nat) : World σ × Bool :=
  let so := env.ioctl_streamon w.dev type
  (w.step so.1 (Event.streamon type so.2), so.2)

/-- The body of the `for` loop of `v4l2_initialize` at position `i` (lines 175-201). -/
def v4l2_initialize_body {σ : Type} (env : Env σ) (i : Nat) (w : World σ) (s : stream_t) :
    Outcome σ stream_t :=
  match s.buffers[i]? with
  | none => .fault w
  | some _ =>
    let r := query_buffer env w (indexed s.bufferinfo i)
    match r.2 with
    | none => diep "VIDIOC_QUERYBUF" r.1
    | some info =>
      -- off_t offset = buffers[i].info.m.offset; buffers[i].length = buffers[i].info.length
      let m := map_buffer env r.1 s.fd info.length info.offset
      match m.2 with
      | none => diep "mmap" m.1
      | some addr =>
        let so := stream_on env (zero_buffer env m.1 addr info.length) info.type
        if so.2 = false then diep "VIDIOC_STREAMON" so.1
        else
          let q := enqueue env so.1 info
          match q.2 with
          | none => diep "VIDIOC_QBUF" q.1
          | some info2 =>
            .ret q.1 (s.put i { info := info2, buffer := addr, length := info.length })

/-- The `for` loop of `v4l2_initialize` (lines 174-202): `n` iterations remain, the next one
at position `i`.  The body never changes `bufrequest.count`. -/
def v4l2_initialize_loop {σ : Type} (env : Env σ) : Nat → Nat → World σ → stream_t →
    Outcome σ stream_t
  | 0, _, w, s => .ret w s
  | n + 1, i, w, s =>
    match v4l2_initialize_body env i w s with
    | .ret w1 s1 => v4l2_initialize_loop env n (i + 1) w1 s1
    | .exit w1 c => .exit w1 c
    | .fault w1 => .fault w1
    | .nofuel w1 => .nofuel w1

/-- The first part of `v4l2_initialize` (lines 112-148): capability check, video format,
frame rate. -/
def negotiate {σ : Type} (env : Env σ) (w : World σ) (s : stream_t) : Outcome σ stream_t :=
  let c := env.ioctl_querycap w.dev s.cap
  match c.2 with
  | none => diep "VIDIOC_QUERYCAP" { w with dev := c.1 }
  | some cap =>
    if cap.capabilities &&& V4L2_CAP_VIDEO_CAPTURE = 0 then
      .exit { w with dev := c.1 } EXIT_FAILURE
    else
      let fmt0 : v4l2_format :=
        { type := V4L2_BUF_TYPE_VIDEO_CAPTURE, pixelformat := V4L2_PIX_FMT_MJPEG,
          width := s.width, height := s.height }
      let f := env.ioctl_s_fmt c.1 fmt0
      match f.2 with
      | none => diep "VIDIOC_S_FMT" { w with dev := f.1 }
      | some fmt =>
        let g := env.ioctl_g_parm f.1 { s.parm with type := V4L2_BUF_TYPE_VIDEO_CAPTURE }
        match g.2 with
        | none => diep "VIDIOC_G_PARM" { w with dev := g.1 }
        | some parm1 =>
          let p := env.ioctl_s_parm g.1 { parm1 with numerator := s.fps, denominator := 1 }
          match p.2 with
          | none => diep "VIDIOC_S_PARM" { w with dev := p.1 }
          | some parm2 =>
            .ret { w with dev := p.1 } { s with cap := cap, format := fmt, parm := parm2 }

/-- The second part of `v4l2_initialize` (lines 153-172): the request for 8 buffers, the
allocation of the descriptor array, the template `bufferinfo`. -/
def request_buffers {σ : Type} (env : Env σ) (w : World σ) (s : stream_t) :
    Outcome σ stream_t :=
  let req0 : v4l2_requestbuffers :=
    { type := V4L2_BUF_TYPE_VIDEO_CAPTURE, memory := V4L2_MEMORY_MMAP, count := 8 }
  let rb := env.ioctl_reqbufs w.dev req0
  let w1 := w.step rb.1 (Event.reqbufs req0 rb.2)
  match rb.2 with
  | none => diep "VIDIOC_REQBUFS" w1
  | some req =>
    -- bufsize = bufrequest.count; buffers = calloc(sizeof(buffer_t), bufsize)
    let a := env.calloc w1.dev req.count
    if a.2 = false then diep "calloc" { w1 with dev := a.1 }
    else
      .ret { w1 with dev := a.1 }
        { s with
          bufrequest := req, bufsize := req.count,
          buffers := List.replicate req.count buffer_zero,
          bufferinfo := { s.bufferinfo with
            type := V4L2_BUF_TYPE_VIDEO_CAPTURE, memory := V4L2_MEMORY_MMAP } }

/-- Source `v4l2_initialize`. -/
def v4l2_initialize {σ : Type} (env : Env σ) (w : World σ) (s : stream_t) :
    Outcome σ stream_t :=
  match negotiate env w s with
  | .exit w1 c => .exit w1 c
  | .fault w1 => .fault w1
  | .nofuel w1 => .nofuel w1
  | .ret w1 s1 =>
    match request_buffers env w1 s1 with
    | .exit w2 c => .exit w2 c
    | .fault w2 => .fault w2
    | .nofuel w2 => .nofuel w2
    | .ret w2 s2 =>
      -- for(size_t i = 0; i < bufrequest.count; i++)
      v4l2_initialize_loop env s2.bufrequest.count 0 w2 s2

/-- Source `sdl_initialize`. -/
def sdl_initialize {σ : Type} (env : Env σ) (w : World σ) (s : stream_t) :
    World σ × stream_t :=
  let c := env.create_window w.dev s.width s.height
  ({ w with dev := c.1 }, { s with window := c.2 })

/-- Source `signal_intercept`. -/
def signal_intercept {σ : Type} (env : Env σ) (signal : Int) (w : World σ) :
    Outcome σ Int :=
  let r := env.sigaction w.dev signal
  if r.2 = false then diep "sigaction" { w with dev := r.1 }
  else .ret { w with dev := r.1 } 0

/-- The `for` loop of `v4l2_cleanup` (lines 296-297); the result of `munmap` is ignored. -/
def v4l2_cleanup_loop {σ : Type} (env : Env σ) : Nat → Nat → World σ → stream_t →
    Outcome σ Unit
  | 0, _, w, _ => .ret w ()
  | n + 1, i, w, s =>
    match s.buffers[i]? with
    | none => .fault w
    | some b =>
      v4l2_cleanup_loop env n (i + 1)
        (w.step (env.munmap w.dev b.buffer b.length) (Event.munmap b.buffer b.length)) s

/-- Source `v4l2_cleanup`: the stream-off request takes `&stream->buftype`; the final
`free(stream->buffers)` releases the descriptor array, not the mappings. -/
def v4l2_cleanup {σ : Type} (env : Env σ) (w : World σ) (s : stream_t) : Outcome σ Unit :=
  let r := env.ioctl_streamoff w.dev s.buftype
  let w1 := w.step r.1 (Event.streamoff s.buftype r.2)
  if r.2 = false then diep "VIDIOC_STREAMOFF" w1
  else v4l2_cleanup_loop env s.bufsize 0 w1 s

/-- The loop `while(global_running) streaming(&stream);` of `main`, with fuel for the
number of `streaming` calls. -/
def main_loop {σ : Type} (env : Env σ) : Nat → World σ → stream_t → Outcome σ stream_t
  | 0, w, s => if w.global_running ≠ 0 then .nofuel w else .ret w s
  | fuel + 1, w, s =>
    if w.global_running ≠ 0 then
      match streaming env w s with
      | .ret w1 r => main_loop env fuel w1 r.1
      | .exit w1 c => .exit w1 c
      | .fault w1 => .fault w1
      | .nofuel w1 => .nofuel w1
    else .ret w s

/-- The `stream_t` of `main` after `memset(&stream, 0x00, sizeof(stream_t))`. -/
def stream_zero : stream_t :=
  { fd := 0, width := 0, height := 0, fps := 0,
    cap := { capabilities := 0 },
    format := { type := 0, pixelformat := 0, width := 0, height := 0 },
    parm := { type := 0, numerator := 0, denominator := 0 },
    bufrequest := { type := 0, memory := 0, count := 0 },
    bufferinfo := { index := 0, type := 0, memory := 0, length := 0, offset := 0 },
    buftype := 0, buffers := [], bufsize := 0,
    window := 0, rwops := 0, image := 0, render := 0, texture := 0,
    stats := { frames := 0, timeframes := 0, begintime := 0, lastupdate := 0 } }

/-- The statistics part of the set-up of `main` (lines 308-311): zeroed counters, and
`begintime = lastupdate = time(NULL)`. -/
def main_stats (t : Int) : stream_t :=
  { stream_zero with stats := { stream_zero.stats with begintime := t, lastupdate := t } }

/-- Source `main`, from a starting environment `d`; `fuel` bounds the `while` loop. -/
def mstream_main {σ : Type} (env : Env σ) (fuel : Nat) (d : σ) : Outcome σ Int :=
  let t := env.time d
  let s1 : stream_t := { main_stats t.2 with width := 1280, height := 720 }
  let o := env.open_video t.1
  let w0 : World σ := { dev := o.1, trace := [], global_running := 1 }
  if o.2 < 0 then .exit (diep_world "open" w0) 1
  else
    match v4l2_initialize env w0 { s1 with fd := o.2 } with
    | .exit w c => .exit w c
    | .fault w => .fault w
    | .nofuel w => .nofuel w
    | .ret w2 s2 =>
      let i := sdl_initialize env w2 s2
      match signal_intercept env SIGINT i.1 with
      | .exit w c => .exit w c
      | .fault w => .fault w
      | .nofuel w => .nofuel w
      | .ret w3 _ =>
        match main_loop env fuel w3 i.2 with
        | .exit w c => .exit w c
        | .fault w => .fault w
        | .nofuel w => .nofuel w
        | .ret w4 s4 =>
          -- sdl_cleanup has no effect on the ring
          match v4l2_cleanup env w4 s4 with
          | .exit w c => .exit w c
          | .fault w => .fault w
          | .nofuel w => .nofuel w
          | .ret w5 _ => .ret { w5 with dev := env.close w5.dev s4.fd } 0

/-- A number of `streaming` calls one after the other, each of which returns. -/
def streaming_calls {σ : Type} (env : Env σ) :
    Nat → World σ → stream_t → Outcome σ stream_t
  | 0, w, s => .ret w s
  | k + 1, w, s =>
    match streaming env w s with
    | .ret w1 r => streaming_calls env k w1 r.1
    | .exit w1 c => .exit w1 c
    | .fault w1 => .fault w1
    | .nofuel w1 => .nofuel w1

/-! ## Reading the trace -/

/-- The mapped region of a descriptor: address and length. -/
def region (b : buffer_t) : Nat × Nat := (b.buffer, b.length)

/-- Dequeue requests. -/
def Event.isDq : Event → Bool
  | .dqbuf _ _ => true
  | _ => false

/-- Frame views handed to the consumer. -/
def Event.isFrame : Event → Bool
  | .frame _ _ => true
  | _ => false

/-- The requests of the ring cycle: dequeue, delivery, enqueue. -/
def Event.isRing : Event → Bool
  | .dqbuf _ _ => true
  | .frame _ _ => true
  | .qbuf _ _ => true
  | _ => false

/-- The ring-cycle events of a trace, in order. -/
def ring_events (t : List Event) : List Event := t.filter Event.isRing

/-- The descriptors offered to the device by `VIDIOC_QBUF`, in order. -/
def qbufs_of (t : List Event) : List v4l2_buffer :=
  t.filterMap fun e => match e with
    | .qbuf req _ => some req
    | _ => none

/-- The descriptors the device reported by successful `VIDIOC_QUERYBUF`, in order. -/
def querybufs_of (t : List Event) : List v4l2_buffer :=
  t.filterMap fun e => match e with
    | .querybuf _ (some r) => some r
    | _ => none

/-- The regions (address, length) established by successful `mmap` calls, in order. -/
def mmaps_of (t : List Event) : List (Nat × Nat) :=
  t.filterMap fun e => match e with
    | .mmap len _ (some addr) => some (addr, len)
    | _ => none

/-- The regions (address, length) passed to `munmap`, in order. -/
def munmaps_of (t : List Event) : List (Nat × Nat) :=
  t.filterMap fun e => match e with
    | .munmap addr len => some (addr, len)
    | _ => none

/-- The frame views (address, length) handed to the consumer, in order. -/
def frames_of (t : List Event) : List (Nat × Nat) :=
  t.filterMap fun e => match e with
    | .frame addr len => some (addr, len)
    | _ => none

/-- The printed reports (elapsed, frames, fps), in order. -/
def reports_of (t : List Event) : List (Int × Nat × Nat) :=
  t.filterMap fun e => match e with
    | .report el fr fps => some (el, fr, fps)
    | _ => none

/-- The buffer types passed to `VIDIOC_STREAMON`, in order. -/
def streamon_types (t : List Event) : List Int :=
  t.filterMap fun e => match e with
    | .streamon ty _ => some (ty : Int)
    | _ => none

/-- The buffer types passed to `VIDIOC_STREAMOFF`, in order. -/
def streamoff_types (t : List Event) : List Int :=
  t.filterMap fun e => match e with
    | .streamoff ty _ => some ty
    | _ => none

/-- The buffer counts granted by successful `VIDIOC_REQBUFS`, in order. -/
def granted_of (t : List Event) : List Nat :=
  t.filterMap fun e => match e with
    | .reqbufs _ (some r) => some r.count
    | _ => none

/-- The part of a trace after the first run of the handler on `SIGINT`, that is after the
stop flag was set. -/
def after_sigint : List Event → List Event
  | [] => []
  | e :: t => if e = Event.signal SIGINT then t else after_sigint t

/-- Progress of the strict dequeue/enqueue alternation along a trace. -/
inductive Alt where
  | idle
  | holding (index : Nat)
  | broken
  deriving DecidableEq, Repr

/-- One event of the alternation: a successful dequeue of index `j` must come when nothing
is held and makes `j` held; an enqueue must come when `j` is held, must offer `j`, and
releases it; a failed dequeue must come when nothing is held. -/
def alt_step : Alt → Event → Alt
  | .idle, .dqbuf _ (.ok info) => .holding info.index
  | .idle, .dqbuf _ (.fail _) => .idle
  | .idle, .qbuf _ _ => .broken
  | .holding _, .dqbuf _ _ => .broken
  | .holding j, .qbuf req _ => if req.index = j then .idle else .broken
  | .broken, _ => .broken
  | a, _ => a

/-- A trace alternates strictly: every successful dequeue is followed, before any other
dequeue, by exactly one enqueue of the index it reported, and there is no other enqueue. -/
def alternates (t : List Event) : Bool :=
  decide (t.foldl alt_step Alt.idle = Alt.idle)

/-! ## A simulated device -/

/-- Answer of the simulated device to one `VIDIOC_DQBUF`. -/
inductive SimDq where
  | filled (index : Nat)
  | interrupted
  | failed (errno : Int)
  deriving DecidableEq, Repr

/-- State of the simulated surroundings. -/
structure Sim where
  now : Int
  grant : Nat
  buflen : Nat
  query_fail : Option Nat
  dq : List SimDq
  bad_frame : Option Nat
  sigint_at_frame : Option Nat
  delivered : Nat
  pending : List Int
  strict_off : Bool
  deriving DecidableEq, Repr

/-- Base address of the mappings of the simulated device. -/
def sim_base : Nat := 0x10000000

/-- The simulated surroundings: the device grants `grant` buffers of `buflen` bytes at
offset `index * buflen`, maps offset `o` at `sim_base + o`, reports filled buffers in the
order scripted in `dq` (an exhausted script is a wait interrupted by `SIGINT`), accepts
`VIDIOC_STREAMON` for the capture type only and, when `strict_off`, `VIDIOC_STREAMOFF`
for the capture type only. -/
def sim : Env Sim where
  time d := (d, d.now)
  open_video d := (d, 3)
  ioctl_querycap d c := (d, some { c with capabilities := 0x04200001 })
  ioctl_s_fmt d f := (d, some f)
  ioctl_g_parm d p := (d, some p)
  ioctl_s_parm d p := (d, some p)
  ioctl_reqbufs d r := (d, some { r with count := d.grant })
  calloc d _ := (d, true)
  ioctl_querybuf d b :=
    if d.query_fail = some b.index then (d, none)
    else (d, some { b with length := d.buflen, offset := b.index * d.buflen })
  mmap d _ _ _ _ offset := (d, some (sim_base + offset))
  memset d _ _ := d
  ioctl_streamon d ty := (d, decide (ty = V4L2_BUF_TYPE_VIDEO_CAPTURE))
  ioctl_qbuf d b := (d, some b)
  ioctl_dqbuf d b :=
    match d.dq with
    | [] => ({ d with pending := [SIGINT] }, .fail EINTR)
    | .filled j :: rest =>
      ({ d with dq := rest },
       .ok { b with index := j, length := d.buflen, offset := j * d.buflen })
    | .interrupted :: rest => ({ d with dq := rest, pending := [SIGINT] }, .fail EINTR)
    | .failed e :: rest => ({ d with dq := rest }, .fail e)
  consume d _ _ _ :=
    ({ d with delivered := d.delivered + 1,
              pending := if d.sigint_at_frame = some d.delivered then [SIGINT] else [] },
     if d.bad_frame = some d.delivered then { rwops := 1, image := 0, render := 1, texture := 0 }
     else { rwops := 1, image := 1, render := 1, texture := 1 })
  signals d := ({ d with pending := [] }, d.pending)
  create_window d _ _ := (d, 1)
  sigaction d _ := (d, true)
  ioctl_streamoff d ty :=
    (d, decide (d.strict_off = false ∨ ty = (V4L2_BUF_TYPE_VIDEO_CAPTURE : Int)))
  munmap d _ _ := d
  close d _ := d

/-- A simulated device granting 8 buffers of 4096 bytes, at second 100, with a script of
dequeue answers. -/
def sim_start (script : List SimDq) : Sim :=
  { now := 100, grant := 8, buflen := 4096, query_fail := none, dq := script,
    bad_frame := none, sigint_at_frame := none, delivered := 0, pending := [],
    strict_off := false }

/-- A world with an empty trace and the stop flag not set. -/
def world_start {σ : Type} (d : σ) : World σ :=
  { dev := d, trace := [], global_running := 1 }

/-- The simulated surroundings with the wall clock set to second `t`. -/
def at_second (t : Int) (w : World Sim) : World Sim :=
  { w with dev := { w.dev with now := t } }

/-- A synthetic feed of `statistics_update_frame` calls: one call per entry of the list,
made while the wall clock of the simulated surroundings shows that second. -/
def feed : List Int → World Sim → stream_t → World Sim × stream_t
  | [], w, s => (w, s)
  | t :: ts, w, s =>
    let u := statistics_update_frame sim (at_second t w) s
    feed ts u.1 u.2

/-- The indices reported by successful dequeues, in order. -/
def dequeued_of (t : List Event) : List Nat :=
  t.filterMap fun e => match e with
    | .dqbuf _ (.ok info) => some info.index
    | _ => none

/-- The status with which the process ends, when it ends: the argument of `exit` or the
value returned by `main`. -/
def Outcome.exit_status {σ : Type} : Outcome σ Int → Option Int
  | .ret _ a => some a
  | .exit _ c => some c
  | .fault _ => none
  | .nofuel _ => none

/-- The status passed to `exit`, when the piece of the program left the process. -/
def Outcome.exited {σ α : Type} : Outcome σ α → Option Int
  | .exit _ c => some c
  | _ => none

/-- Whether a piece of the program returned to its caller. -/
def Outcome.returned {σ α : Type} : Outcome σ α → Bool
  | .ret _ _ => true
  | _ => false

/-- The stream after a piece of the program that returns one. -/
def Outcome.stream {σ : Type} : Outcome σ stream_t → Option stream_t
  | .ret _ s => some s
  | _ => none

/-- The world and the stream after `v4l2_initialize` on a simulated device, started from
the zeroed stream of `main`, with the trace cleared (the zeroed stream again when the
initialization does not return). -/
def after_init (d : Sim) : World Sim × stream_t :=
  match v4l2_initialize sim (world_start d) stream_zero with
  | .ret w s => ({ w with trace := [] }, s)
  | .exit w _ => (w, stream_zero)
  | .fault w => (w, stream_zero)
  | .nofuel w => (w, stream_zero)

/-- The world after `v4l2_initialize` on a simulated device, trace included. -/
def ring_world (d : Sim) : World Sim :=
  ( v4l2_initialize sim (world_start d) stream_zero).world

/-- The stream after `v4l2_initialize` on a simulated device. -/
def ring_stream (d : Sim) : stream_t :=
  (( v4l2_initialize sim (world_start d) stream_zero).stream).getD stream_zero

/-- The world after `v4l2_initialize` and `k` calls of `streaming` on a simulated device. -/
def played_world (k : Nat) (d : Sim) : World Sim :=
  (streaming_calls sim k (ring_world d) (ring_stream d)).world

/-- The stream after `v4l2_initialize` and `k` calls of `streaming` on a simulated
device. -/
def played_stream (k : Nat) (d : Sim) : stream_t :=
  ((streaming_calls sim k (ring_world d) (ring_stream d)).stream).getD stream_zero

/-- The index-ordered script of a device that fills all 8 buffers in queue order. -/
def fill_in_order : List SimDq :=
  [.filled 0, .filled 1, .filled 2, .filled 3, .filled 4, .filled 5, .filled 6, .filled 7]

/-! ## Signals, statistics and the trace -/

theorem sighandler_fold_trace {σ : Type} (l : List Int) (w : World σ) :
    (l.foldl (fun acc signo => sighandler signo acc) w).trace
      = w.trace ++ l.map Event.signal := by
  induction l generalizing w with
  | nil => simp
  | cons a l ih =>
    simp only [List.foldl_cons, List.map_cons]
    rw [ih]
    unfold sighandler
    split <;> simp

theorem sighandler_fold_flag {σ : Type} (l : List Int) (w : World σ) :
    (l.foldl (fun acc signo => sighandler signo acc) w).global_running
      = if SIGINT ∈ l then 0 else w.global_running := by
  induction l generalizing w with
  | nil => simp
  | cons a l ih =>
    simp only [List.foldl_cons, List.mem_cons]
    rw [ih]
    unfold sighandler
    by_cases h : a = SIGINT
    · simp [h]
    · have h2 : ¬ SIGINT = a := fun e => h e.symm
      simp [h, h2]

theorem handle_signals_trace {σ : Type} (env : Env σ) (w : World σ) :
    (handle_signals env w).trace = w.trace ++ (env.signals w.dev).2.map Event.signal := by
  unfold handle_signals
  simp [sighandler_fold_trace]

theorem handle_signals_flag {σ : Type} (env : Env σ) (w : World σ) :
    (handle_signals env w).global_running
      = if SIGINT ∈ (env.signals w.dev).2 then 0 else w.global_running := by
  unfold handle_signals
  simp [sighandler_fold_flag]

theorem statistics_trace {σ : Type} (env : Env σ) (w : World σ) (s : stream_t) :
    ∃ rp, (statistics_update_frame env w s).1.trace = w.trace ++ rp ∧
      (rp = [] ∨ ∃ el fr fps, rp = [Event.report el fr fps]) := by
  unfold statistics_update_frame
  simp only
  split
  · exact ⟨_, rfl, Or.inr ⟨_, _, _, rfl⟩⟩
  · exact ⟨[], by simp, Or.inl rfl⟩

theorem statistics_flag {σ : Type} (env : Env σ) (w : World σ) (s : stream_t) :
    (statistics_update_frame env w s).1.global_running = w.global_running := by
  unfold statistics_update_frame
  simp only
  split <;> rfl

theorem statistics_buffers {σ : Type} (env : Env σ) (w : World σ) (s : stream_t) :
    (statistics_update_frame env w s).2.buffers = s.buffers ∧
    (statistics_update_frame env w s).2.bufsize = s.bufsize ∧
    (statistics_update_frame env w s).2.stats.frames = (s.stats.frames + 1) % 2 ^ 64 := by
  unfold statistics_update_frame
  simp only
  split <;> simp

theorem ring_events_signals (l : List Int) : ring_events (l.map Event.signal) = [] := by
  induction l with
  | nil => rfl
  | cons a l ih => simp [ring_events, Event.isRing]

theorem reports_of_signals (l : List Int) : reports_of (l.map Event.signal) = [] := by
  induction l with
  | nil => rfl
  | cons a l ih => simp [reports_of]

theorem ring_events_append (a b : List Event) :
    ring_events (a ++ b) = ring_events a ++ ring_events b := by
  simp [ring_events]

theorem reports_of_append (a b : List Event) :
    reports_of (a ++ b) = reports_of a ++ reports_of b := by
  simp [reports_of]

theorem map_region_set (l : List buffer_t) (i : Nat) (b c : buffer_t)
    (hb : l[i]? = some b) (hc : region c = region b) :
    (l.set i c).map region = l.map region := by
  apply List.ext_getElem?
  intro k
  simp only [List.getElem?_map, List.getElem?_set]
  by_cases hk : i = k
  · subst hk
    have hlt : i < l.length := by
      rcases Nat.lt_or_ge i l.length with h | h
      · exact h
      · rw [List.getElem?_eq_none h] at hb; cases hb
    simp [hlt, hb, hc]
  · simp [hk]

/-! ## The pieces of one streaming iteration -/

theorem dequeue_trace {σ : Type} (env : Env σ) (w : World σ) (b : buffer_t) :
    (dequeue env w b).1.trace = w.trace ++ Event.dqbuf b.info (dequeue env w b).2 ::
      (env.signals (env.ioctl_dqbuf w.dev b.info).1).2.map Event.signal := by
  simp [dequeue, handle_signals_trace, World.step]

theorem dequeue_flag {σ : Type} (env : Env σ) (w : World σ) (b : buffer_t) :
    (dequeue env w b).1.global_running
      = if SIGINT ∈ (env.signals (env.ioctl_dqbuf w.dev b.info).1).2 then 0
        else w.global_running := by
  simp [dequeue, handle_signals_flag, World.step]

theorem deliver_trace {σ : Type} (env : Env σ) (w : World σ) (s : stream_t) (b : buffer_t) :
    (deliver env w s b).1.trace = w.trace ++ Event.frame b.buffer b.length ::
      (env.signals (env.consume w.dev s.window b.buffer b.length).1).2.map Event.signal := by
  simp [deliver, handle_signals_trace, World.step]

theorem deliver_flag {σ : Type} (env : Env σ) (w : World σ) (s : stream_t) (b : buffer_t) :
    (deliver env w s b).1.global_running
      = if SIGINT ∈ (env.signals (env.consume w.dev s.window b.buffer b.length).1).2 then 0
        else w.global_running := by
  simp [deliver, handle_signals_flag, World.step]

theorem deliver_stream {σ : Type} (env : Env σ) (w : World σ) (s : stream_t) (b : buffer_t) :
    (deliver env w s b).2.buffers = s.buffers ∧ (deliver env w s b).2.bufsize = s.bufsize ∧
    (deliver env w s b).2.stats = s.stats := by
  simp [deliver]

theorem dequeue_shape {σ : Type} (env : Env σ) (w : World σ) (b : buffer_t) :
    ∃ sg, (dequeue env w b).1.trace
        = w.trace ++ Event.dqbuf b.info (dequeue env w b).2 :: List.map Event.signal sg ∧
      (dequeue env w b).1.global_running = if SIGINT ∈ sg then 0 else w.global_running :=
  ⟨_, dequeue_trace env w b, dequeue_flag env w b⟩

theorem deliver_shape {σ : Type} (env : Env σ) (w : World σ) (s : stream_t) (b : buffer_t) :
    ∃ sg, (deliver env w s b).1.trace
        = w.trace ++ Event.frame b.buffer b.length :: List.map Event.signal sg ∧
      (deliver env w s b).1.global_running = if SIGINT ∈ sg then 0 else w.global_running :=
  ⟨_, deliver_trace env w s b, deliver_flag env w s b⟩

theorem enqueue_trace {σ : Type} (env : Env σ) (w : World σ) (info : v4l2_buffer) :
    (enqueue env w info).1.trace
      = w.trace ++ [Event.qbuf info (enqueue env w info).2.isSome] := by
  simp [enqueue, World.step]

theorem enqueue_flag {σ : Type} (env : Env σ) (w : World σ) (info : v4l2_buffer) :
    (enqueue env w info).1.global_running = w.global_running := by
  simp [enqueue, World.step]

theorem enqueue_reply {σ : Type} (env : Env σ) (w : World σ) (info : v4l2_buffer) :
    (enqueue env w info).2 = (env.ioctl_qbuf w.dev info).2 := rfl

/-- C5. An interrupted dequeue (`VIDIOC_DQBUF` failing with `EINTR`) at any loop position
`i` makes `streaming` return 1 with the stream state untouched (statistics and every
descriptor included); the only ring request of that iteration is the failed dequeue: no
enqueue is issued, no frame is delivered, no report is printed. -/
theorem streaming_interrupted_returns_one {σ : Type} (env : Env σ) (n i : Nat)
    (w : World σ) (s : stream_t) (b : buffer_t)
    (hb : s.buffers[i]? = some b)
    (hd : (env.ioctl_dqbuf w.dev b.info).2 = DqReply.fail EINTR) :
    ∃ w1 evs, streaming_loop env (n + 1) i w s = Outcome.ret w1 (s, 1) ∧
      w1.trace = w.trace ++ evs ∧
      ring_events evs = [Event.dqbuf b.info (DqReply.fail EINTR)] ∧
      reports_of evs = [] := by
  have hd2 : (dequeue env w b).2 = DqReply.fail EINTR := hd
  refine ⟨(dequeue env w b).1, _, ?_, dequeue_trace env w b, ?_, ?_⟩
  · simp [streaming_loop, streaming_body, hb, hd2]
  · simp [ring_events, Event.isRing, hd2]
  · simp [reports_of]

theorem put_buffers (s : stream_t) (i : Nat) (b : buffer_t) :
    (s.put i b).buffers = s.buffers.set i b := rfl

theorem put_bufsize (s : stream_t) (i : Nat) (b : buffer_t) :
    (s.put i b).bufsize = s.bufsize := rfl

theorem put_stats (s : stream_t) (i : Nat) (b : buffer_t) :
    (s.put i b).stats = s.stats := rfl

theorem getElem?_lt {α : Type} (l : List α) (i : Nat) (b : α) (hb : l[i]? = some b) :
    i < l.length := by
  rcases Nat.lt_or_ge i l.length with h | h
  · exact h
  · rw [List.getElem?_eq_none h] at hb; cases hb

theorem streaming_body_next {σ : Type} (env : Env σ) (i : Nat) (w w1 : World σ)
    (s s1 : stream_t) (h : streaming_body env i w s = Step.next w1 s1) :
    ∃ b info sg1 sg2 rp, s.buffers[i]? = some b ∧
      (env.ioctl_dqbuf w.dev b.info).2 = DqReply.ok info ∧
      w1.trace = w.trace ++ (Event.dqbuf b.info (DqReply.ok info) :: List.map Event.signal sg1
        ++ Event.frame b.buffer b.length :: List.map Event.signal sg2
        ++ Event.qbuf info true :: rp) ∧
      (rp = [] ∨ ∃ el fr fps, rp = [Event.report el fr fps]) ∧
      w1.global_running = (if SIGINT ∈ sg1 ++ sg2 then 0 else w.global_running) ∧
      s1.buffers.map region = s.buffers.map region ∧
      s1.bufsize = s.bufsize ∧
      s1.stats.frames = (s.stats.frames + 1) % 2 ^ 64 := by
  unfold streaming_body at h
  split at h
  · cases h
  · rename_i b hb
    simp only at h
    split at h
    · split at h <;> cases h
    · rename_i info hd
      split at h
      · cases h
      · rename_i info2 hq
        injection h with hw hs
        subst hw hs
        have hlt := getElem?_lt _ _ _ hb
        obtain ⟨rp, hrp, hshape⟩ := statistics_trace env
          (enqueue env (deliver env (dequeue env w b).1 (s.put i { b with info := info })
            { b with info := info }).1 info).1
          ((deliver env (dequeue env w b).1 (s.put i { b with info := info })
            { b with info := info }).2.put i { b with info := info2 })
        have hst := statistics_buffers env
          (enqueue env (deliver env (dequeue env w b).1 (s.put i { b with info := info })
            { b with info := info }).1 info).1
          ((deliver env (dequeue env w b).1 (s.put i { b with info := info })
            { b with info := info }).2.put i { b with info := info2 })
        have hdl := deliver_stream env (dequeue env w b).1 (s.put i { b with info := info })
            { b with info := info }
        obtain ⟨sg1, ht1, hf1⟩ := dequeue_shape env w b
        obtain ⟨sg2, ht2, hf2⟩ := deliver_shape env (dequeue env w b).1
          (s.put i { b with info := info }) { b with info := info }
        refine ⟨b, info, sg1, sg2, rp, hb, hd, ?_, hshape, ?_, ?_, ?_, ?_⟩
        · rw [hrp, enqueue_trace, ht2, ht1, hd, hq]
          simp [List.append_assoc]
        · rw [statistics_flag, enqueue_flag, hf2, hf1]
          simp only [List.mem_append]
          split <;> split <;> simp_all
        · rw [hst.1, put_buffers, hdl.1, put_buffers]
          rw [map_region_set _ i { b with info := info } { b with info := info2 }
              (by simp [hlt]) rfl,
            map_region_set _ i b { b with info := info } hb rfl]
        · rw [hst.2.1, put_bufsize, hdl.2.1, put_bufsize]
        · rw [hst.2.2, put_stats, hdl.2.2, put_stats]

theorem streaming_body_ret1 {σ : Type} (env : Env σ) (i : Nat) (w w1 : World σ)
    (s s1 : stream_t) (h : streaming_body env i w s = Step.ret1 w1 s1) :
    s1 = s ∧ ∃ b sg, s.buffers[i]? = some b ∧
      (env.ioctl_dqbuf w.dev b.info).2 = DqReply.fail EINTR ∧
      w1.trace = w.trace ++ Event.dqbuf b.info (DqReply.fail EINTR) :: List.map Event.signal sg ∧
      w1.global_running = (if SIGINT ∈ sg then 0 else w.global_running) := by
  unfold streaming_body at h
  split at h
  · cases h
  · rename_i b hb
    simp only at h
    split at h
    · rename_i errno hd
      split at h
      · cases h
      · rename_i he
        have he2 : errno = EINTR := by
          by_contra hne
          exact he hne
        subst he2
        injection h with hw hs
        subst hw hs
        obtain ⟨sg1, ht1, hf1⟩ := dequeue_shape env w b
        rw [hd] at ht1
        exact ⟨rfl, b, sg1, hb, hd, ht1, hf1⟩
    · split at h <;> cases h

theorem diep_world_trace {σ : Type} (str : String) (w : World σ) :
    (diep_world str w).trace = w.trace ++ [Event.perror str] := rfl

theorem diep_world_flag {σ : Type} (str : String) (w : World σ) :
    (diep_world str w).global_running = w.global_running := rfl

theorem streaming_body_exit {σ : Type} (env : Env σ) (i : Nat) (w w1 : World σ)
    (s : stream_t) (c : Int) (h : streaming_body env i w s = Step.exit w1 c) :
    c = EXIT_FAILURE ∧ ∃ b sg1, s.buffers[i]? = some b ∧
      ((∃ errno, w1.trace = w.trace ++ (Event.dqbuf b.info (DqReply.fail errno) ::
          List.map Event.signal sg1 ++ [Event.perror "VIDIOC_QBUF"]) ∧
          w1.global_running = (if SIGINT ∈ sg1 then 0 else w.global_running)) ∨
       (∃ info sg2, w1.trace = w.trace ++ (Event.dqbuf b.info (DqReply.ok info) ::
          List.map Event.signal sg1 ++ Event.frame b.buffer b.length ::
          List.map Event.signal sg2 ++ [Event.qbuf info false, Event.perror "VIDIOC_QBUF"]) ∧
          w1.global_running = (if SIGINT ∈ sg1 ++ sg2 then 0 else w.global_running))) := by
  unfold streaming_body at h
  split at h
  · cases h
  · rename_i b hb
    simp only at h
    obtain ⟨sg1, ht1, hf1⟩ := dequeue_shape env w b
    split at h
    · rename_i errno hd
      split at h
      · injection h with hw hc
        subst hw hc
        refine ⟨rfl, b, sg1, hb, Or.inl ⟨errno, ?_, ?_⟩⟩
        · rw [diep_world_trace, ht1, hd]
          simp [List.append_assoc]
        · rw [diep_world_flag, hf1]
      · cases h
    · rename_i info hd
      obtain ⟨sg2, ht2, hf2⟩ := deliver_shape env (dequeue env w b).1
        (s.put i { b with info := info }) { b with info := info }
      split at h
      · rename_i hq
        injection h with hw hc
        subst hw hc
        refine ⟨rfl, b, sg1, hb, Or.inr ⟨info, sg2, ?_, ?_⟩⟩
        · rw [diep_world_trace, enqueue_trace, ht2, ht1, hd, hq]
          simp [List.append_assoc]
        · rw [diep_world_flag, enqueue_flag, hf2, hf1]
          simp only [List.mem_append]
          split <;> split <;> simp_all
      · cases h

theorem streaming_body_fault {σ : Type} (env : Env σ) (i : Nat) (w w1 : World σ)
    (s : stream_t) (h : streaming_body env i w s = Step.fault w1) : w1 = w := by
  unfold streaming_body at h
  split at h
  · injection h with h; exact h.symm
  · simp only at h
    split at h
    · split at h <;> cases h
    · split at h <;> cases h

/-! ## Facts on traces -/

theorem after_sigint_append (a b : List Event) :
    after_sigint (a ++ b)
      = if Event.signal SIGINT ∈ a then after_sigint a ++ b else after_sigint b := by
  induction a with
  | nil => simp [after_sigint]
  | cons e a ih =>
    by_cases he : e = Event.signal SIGINT
    · simp [after_sigint, he]
    · have he2 : ¬ Event.signal SIGINT = e := fun x => he x.symm
      simp [after_sigint, he, he2, ih]

theorem countP_after_sigint_le (p : Event → Bool) (l : List Event) :
    (after_sigint l).countP p ≤ l.countP p := by
  induction l with
  | nil => simp [after_sigint]
  | cons e l ih =>
    unfold after_sigint
    split
    · rw [List.countP_cons]; omega
    · rw [List.countP_cons]; omega

theorem alt_signals (a : Alt) (l : List Int) :
    List.foldl alt_step a (List.map Event.signal l) = a := by
  induction l with
  | nil => rfl
  | cons x l ih =>
    simp only [List.map_cons, List.foldl_cons]
    have : alt_step a (Event.signal x) = a := by cases a <;> rfl
    rw [this, ih]

theorem countP_isDq_signals (l : List Int) :
    (List.map Event.signal l).countP Event.isDq = 0 := by
  induction l with
  | nil => rfl
  | cons x l ih => simp [List.countP_cons, Event.isDq, ih]

theorem countP_isFrame_signals (l : List Int) :
    (List.map Event.signal l).countP Event.isFrame = 0 := by
  induction l with
  | nil => rfl
  | cons x l ih => simp [List.countP_cons, Event.isFrame, ih]

theorem after_sigint_dq_head (x : v4l2_buffer) (r : DqReply) (rest : List Event)
    (h : rest.countP Event.isDq = 0) :
    (after_sigint (Event.dqbuf x r :: rest)).countP Event.isDq = 0 := by
  have h1 : after_sigint (Event.dqbuf x r :: rest) = after_sigint rest := by
    simp [after_sigint]
  have h2 := countP_after_sigint_le Event.isDq rest
  rw [h1]
  omega

theorem streaming_body_summary {σ : Type} (env : Env σ) (i : Nat) (w : World σ)
    (s : stream_t) :
    ∃ evs, (streaming_body env i w s).world.trace = w.trace ++ evs ∧
      List.foldl alt_step Alt.idle evs = Alt.idle ∧
      evs.countP Event.isDq ≤ 1 ∧ evs.countP Event.isFrame ≤ 1 ∧
      (after_sigint evs).countP Event.isDq = 0 ∧
      (streaming_body env i w s).world.global_running
        = (if Event.signal SIGINT ∈ evs then 0 else w.global_running) := by
  cases hbody : streaming_body env i w s with
  | next w1 s1 =>
    obtain ⟨b, info, sg1, sg2, rp, hb, hd, ht, hrp, hf, -, -, -⟩ :=
      streaming_body_next env i w w1 s s1 hbody
    refine ⟨_, ht, ?_, ?_, ?_, ?_, ?_⟩
    · rcases hrp with rfl | ⟨el, fr, fps, rfl⟩ <;>
        simp [List.foldl_append, alt_signals, alt_step]
    · rcases hrp with rfl | ⟨el, fr, fps, rfl⟩ <;>
        simp [-List.countP_map, List.countP_cons, List.countP_append,
          countP_isDq_signals, Event.isDq]
    · rcases hrp with rfl | ⟨el, fr, fps, rfl⟩ <;>
        simp [-List.countP_map, List.countP_cons, List.countP_append,
          countP_isFrame_signals, Event.isFrame]
    · rw [List.cons_append, List.cons_append]
      apply after_sigint_dq_head
      rcases hrp with rfl | ⟨el, fr, fps, rfl⟩ <;>
        simp [-List.countP_map, List.countP_cons, List.countP_append,
          countP_isDq_signals, Event.isDq]
    · simp only [Step.world]
      rw [hf]
      rcases hrp with rfl | ⟨el, fr, fps, rfl⟩ <;> simp [List.mem_append]
  | ret1 w1 s1 =>
    obtain ⟨-, b, sg, hb, hd, ht, hf⟩ := streaming_body_ret1 env i w w1 s s1 hbody
    refine ⟨_, ht, ?_, ?_, ?_, ?_, ?_⟩
    · simp [alt_signals, alt_step]
    · simp [-List.countP_map, List.countP_cons, countP_isDq_signals, Event.isDq]
    · simp [-List.countP_map, List.countP_cons, countP_isFrame_signals, Event.isFrame]
    · exact after_sigint_dq_head _ _ _ (countP_isDq_signals sg)
    · simp only [Step.world]
      rw [hf]
      simp
  | exit w1 c =>
    obtain ⟨-, b, sg1, hb, ⟨errno, ht, hf⟩ | ⟨info, sg2, ht, hf⟩⟩ :=
      streaming_body_exit env i w w1 s c hbody
    · refine ⟨_, ht, ?_, ?_, ?_, ?_, ?_⟩
      · simp [List.foldl_append, alt_signals, alt_step]
      · simp [-List.countP_map, List.countP_cons, List.countP_append,
          countP_isDq_signals, Event.isDq]
      · simp [-List.countP_map, List.countP_cons, List.countP_append,
          countP_isFrame_signals, Event.isFrame]
      · rw [List.cons_append]
        apply after_sigint_dq_head
        simp [-List.countP_map, List.countP_cons, List.countP_append,
          countP_isDq_signals, Event.isDq]
      · simp only [Step.world]
        rw [hf]
        simp [List.mem_append]
    · refine ⟨_, ht, ?_, ?_, ?_, ?_, ?_⟩
      · simp [List.foldl_append, alt_signals, alt_step]
      · simp [-List.countP_map, List.countP_cons, List.countP_append,
          countP_isDq_signals, Event.isDq]
      · simp [-List.countP_map, List.countP_cons, List.countP_append,
          countP_isFrame_signals, Event.isFrame]
      · rw [List.cons_append, List.cons_append]
        apply after_sigint_dq_head
        simp [-List.countP_map, List.countP_cons, List.countP_append,
          countP_isDq_signals, Event.isDq]
      · simp only [Step.world]
        rw [hf]
        simp [List.mem_append]
  | fault w1 =>
    have := streaming_body_fault env i w w1 s hbody
    subst this
    exact ⟨[], by simp [Step.world], rfl, by simp, by simp, by simp [after_sigint],
      by simp [Step.world]⟩

/-! ## The streaming loop and the loop of main -/

theorem streaming_loop_summary {σ : Type} (env : Env σ) (n : Nat) :
    ∀ (i : Nat) (w : World σ) (s : stream_t),
    ∃ evs, (streaming_loop env n i w s).world.trace = w.trace ++ evs ∧
      List.foldl alt_step Alt.idle evs = Alt.idle ∧
      evs.countP Event.isDq ≤ n ∧ evs.countP Event.isFrame ≤ n ∧
      (after_sigint evs).countP Event.isDq ≤ n - 1 ∧
      (streaming_loop env n i w s).world.global_running
        = (if Event.signal SIGINT ∈ evs then 0 else w.global_running) := by
  induction n with
  | zero =>
    intro i w s
    exact ⟨[], by simp [streaming_loop, Outcome.world], rfl, by simp, by simp,
      by simp [after_sigint], by simp [streaming_loop, Outcome.world]⟩
  | succ n ih =>
    intro i w s
    obtain ⟨e1, ht1, ha1, hd1, hf1, hs1, hg1⟩ := streaming_body_summary env i w s
    cases hbody : streaming_body env i w s with
    | next w1 s1 =>
      rw [hbody] at ht1 hg1
      simp only [Step.world] at ht1 hg1
      obtain ⟨e2, ht2, ha2, hd2, hf2, hs2, hg2⟩ := ih (i + 1) w1 s1
      have hloop : streaming_loop env (n + 1) i w s = streaming_loop env n (i + 1) w1 s1 := by
        simp [streaming_loop, hbody]
      rw [hloop]
      refine ⟨e1 ++ e2, ?_, ?_, ?_, ?_, ?_, ?_⟩
      · rw [ht2, ht1, List.append_assoc]
      · rw [List.foldl_append, ha1, ha2]
      · rw [List.countP_append]; omega
      · rw [List.countP_append]; omega
      · rw [after_sigint_append]
        split
        · rw [List.countP_append]; omega
        · omega
      · rw [hg2, hg1]
        simp only [List.mem_append]
        split <;> split <;> simp_all
    | ret1 w1 s1 =>
      rw [hbody] at ht1 hg1
      have hloop : streaming_loop env (n + 1) i w s = Outcome.ret w1 (s1, 1) := by
        simp [streaming_loop, hbody]
      rw [hloop]
      exact ⟨e1, ht1, ha1, by omega, by omega, by omega, hg1⟩
    | exit w1 c =>
      rw [hbody] at ht1 hg1
      have hloop : streaming_loop env (n + 1) i w s = Outcome.exit w1 c := by
        simp [streaming_loop, hbody]
      rw [hloop]
      exact ⟨e1, ht1, ha1, by omega, by omega, by omega, hg1⟩
    | fault w1 =>
      rw [hbody] at ht1 hg1
      have hloop : streaming_loop env (n + 1) i w s = Outcome.fault w1 := by
        simp [streaming_loop, hbody]
      rw [hloop]
      exact ⟨e1, ht1, ha1, by omega, by omega, by omega, hg1⟩

theorem streaming_loop_ret {σ : Type} (env : Env σ) (n : Nat) :
    ∀ (i : Nat) (w w1 : World σ) (s s1 : stream_t) (r : Int),
    streaming_loop env n i w s = Outcome.ret w1 (s1, r) →
    s1.bufsize = s.bufsize ∧ s1.buffers.map region = s.buffers.map region := by
  induction n with
  | zero =>
    intro i w w1 s s1 r h
    simp only [streaming_loop] at h
    injection h with hw hs
    injection hs with hs hr
    subst hs
    exact ⟨rfl, rfl⟩
  | succ n ih =>
    intro i w w1 s s1 r h
    cases hbody : streaming_body env i w s with
    | next w2 s2 =>
      obtain ⟨b, info, sg1, sg2, rp, -, -, -, -, -, hreg, hsz, -⟩ :=
        streaming_body_next env i w w2 s s2 hbody
      simp only [streaming_loop, hbody] at h
      obtain ⟨h1, h2⟩ := ih (i + 1) w2 w1 s2 s1 r h
      exact ⟨h1.trans hsz, h2.trans hreg⟩
    | ret1 w2 s2 =>
      obtain ⟨hs, -⟩ := streaming_body_ret1 env i w w2 s s2 hbody
      simp only [streaming_loop, hbody] at h
      injection h with hw hs2
      injection hs2 with hs2 hr
      subst hs2 hs
      exact ⟨rfl, rfl⟩
    | exit w2 c => simp [streaming_loop, hbody] at h
    | fault w2 => simp [streaming_loop, hbody] at h

theorem main_loop_summary {σ : Type} (env : Env σ) (fuel : Nat) :
    ∀ (w : World σ) (s : stream_t),
    ∃ evs, (main_loop env fuel w s).world.trace = w.trace ++ evs ∧
      List.foldl alt_step Alt.idle evs = Alt.idle ∧
      (after_sigint evs).countP Event.isDq ≤ s.bufsize - 1 ∧
      (after_sigint evs).countP Event.isFrame ≤ s.bufsize ∧
      (w.global_running = 0 → evs = []) := by
  induction fuel with
  | zero =>
    intro w s
    refine ⟨[], ?_, rfl, by simp [after_sigint], by simp [after_sigint], fun _ => rfl⟩
    unfold main_loop
    split <;> simp [Outcome.world]
  | succ fuel ih =>
    intro w s
    by_cases hg : w.global_running = 0
    · refine ⟨[], ?_, rfl, by simp [after_sigint], by simp [after_sigint], fun _ => rfl⟩
      simp [main_loop, hg, Outcome.world]
    · obtain ⟨e1, ht1, ha1, hd1, hf1, hs1, hg1⟩ := streaming_loop_summary env s.bufsize 0 w s
      have hfr := countP_after_sigint_le Event.isFrame e1
      cases hst : streaming env w s with
      | ret w1 r =>
        have hst2 : streaming_loop env s.bufsize 0 w s = Outcome.ret w1 (r.1, r.2) := hst
        rw [hst2] at ht1 hg1
        simp only [Outcome.world] at ht1 hg1
        obtain ⟨hsz, -⟩ := streaming_loop_ret env s.bufsize 0 w w1 s r.1 r.2 hst2
        obtain ⟨e2, ht2, ha2, hd2, hf2, hnil⟩ := ih w1 r.1
        have hm : main_loop env (fuel + 1) w s = main_loop env fuel w1 r.1 := by
          simp [main_loop, hg, hst]
        rw [hm]
        refine ⟨e1 ++ e2, ?_, ?_, ?_, ?_, fun h => absurd h hg⟩
        · rw [ht2, ht1, List.append_assoc]
        · rw [List.foldl_append, ha1, ha2]
        · rw [after_sigint_append]
          split
          · rename_i hmem
            rw [if_pos hmem] at hg1
            rw [hnil hg1, List.append_nil]
            exact hs1
          · rw [hsz] at hd2; exact hd2
        · rw [after_sigint_append]
          split
          · rename_i hmem
            rw [if_pos hmem] at hg1
            rw [hnil hg1, List.append_nil]
            omega
          · rw [hsz] at hf2; exact hf2
      | exit w1 c =>
        have hst2 : streaming_loop env s.bufsize 0 w s = Outcome.exit w1 c := hst
        rw [hst2] at ht1
        have hm : main_loop env (fuel + 1) w s = Outcome.exit w1 c := by
          simp [main_loop, hg, hst]
        rw [hm]
        exact ⟨e1, ht1, ha1, hs1, by omega, fun h => absurd h hg⟩
      | fault w1 =>
        have hst2 : streaming_loop env s.bufsize 0 w s = Outcome.fault w1 := hst
        rw [hst2] at ht1
        have hm : main_loop env (fuel + 1) w s = Outcome.fault w1 := by
          simp [main_loop, hg, hst]
        rw [hm]
        exact ⟨e1, ht1, ha1, hs1, by omega, fun h => absurd h hg⟩
      | nofuel w1 =>
        have hst2 : streaming_loop env s.bufsize 0 w s = Outcome.nofuel w1 := hst
        rw [hst2] at ht1
        have hm : main_loop env (fuel + 1) w s = Outcome.nofuel w1 := by
          simp [main_loop, hg, hst]
        rw [hm]
        exact ⟨e1, ht1, ha1, hs1, by omega, fun h => absurd h hg⟩

/-! ## The claims on the streaming loop -/

/-- The alternation check accepts a dequeue of index 3 followed by an enqueue of index 3,
with a delivery in between. -/
theorem alternates_accepts_cycle (x y : v4l2_buffer) :
    alternates [Event.dqbuf x (DqReply.ok { y with index := 3 }), Event.frame 0 0,
      Event.qbuf { y with index := 3 } true] = true := by
  simp [alternates, alt_step]

/-- The alternation check rejects an enqueue of another index, a second dequeue before the
enqueue, a dequeue left without enqueue, and an enqueue without dequeue. -/
theorem alternates_rejects_violations (x y : v4l2_buffer) :
    alternates [Event.dqbuf x (DqReply.ok { y with index := 3 }),
      Event.qbuf { y with index := 0 } true] = false ∧
    alternates [Event.dqbuf x (DqReply.ok y), Event.dqbuf x (DqReply.ok y)] = false ∧
    alternates [Event.dqbuf x (DqReply.ok y)] = false ∧
    alternates [Event.qbuf y true] = false := by
  simp [alternates, alt_step]

/-- C2. In every run of the streaming loop (one `streaming` pass, and any number of
passes under the loop of `main`), the dequeue and enqueue requests alternate strictly:
every successful `VIDIOC_DQBUF` reporting index `j` is followed, before any other
dequeue, by exactly one `VIDIOC_QBUF`, and that one offers index `j`. -/
theorem streaming_requests_alternate {σ : Type} (env : Env σ) (fuel : Nat) (w : World σ)
    (s : stream_t) :
    (∃ evs, (streaming env w s).world.trace = w.trace ++ evs ∧ alternates evs = true) ∧
    (∃ evs, (main_loop env fuel w s).world.trace = w.trace ++ evs ∧
      alternates evs = true) := by
  constructor
  · obtain ⟨evs, ht, ha, -⟩ := streaming_loop_summary env s.bufsize 0 w s
    exact ⟨evs, ht, by simp [alternates, ha]⟩
  · obtain ⟨evs, ht, ha, -⟩ := main_loop_summary env fuel w s
    exact ⟨evs, ht, by simp [alternates, ha]⟩

/-- C4, as stated, fails: on a device that fills its 8 buffers in order, with `SIGINT`
arriving during the delivery of the first frame, the pass goes on after the stop flag was
set: 7 more dequeues are issued and 7 more frames delivered before the loop ends. -/
theorem stop_flag_not_checked_in_pass :
    (main_loop sim 3
        (after_init { sim_start fill_in_order with sigint_at_frame := some 0 }).1
        (after_init { sim_start fill_in_order with sigint_at_frame := some 0 }).2).returned
      = true ∧
    (after_sigint (main_loop sim 3
        (after_init { sim_start fill_in_order with sigint_at_frame := some 0 }).1
        (after_init { sim_start fill_in_order with sigint_at_frame := some 0 }).2
      ).world.trace).countP Event.isDq = 7 ∧
    (after_sigint (main_loop sim 3
        (after_init { sim_start fill_in_order with sigint_at_frame := some 0 }).1
        (after_init { sim_start fill_in_order with sigint_at_frame := some 0 }).2
      ).world.trace).countP Event.isFrame = 7 := by
  decide

/-- C4, amended. The stop flag is tested once per `streaming` pass, at the `while` of
`main`: with the flag set at that test the loop returns at once, issuing nothing; and in
the whole rest of a run after the handler set the flag, at most `bufsize - 1` further
dequeues are issued and at most `bufsize` further frames are delivered. -/
theorem stop_flag_checked_once_per_pass {σ : Type} (env : Env σ) (fuel : Nat) (w : World σ)
    (s : stream_t) :
    main_loop env fuel { w with global_running := 0 } s
      = Outcome.ret { w with global_running := 0 } s ∧
    ∃ evs, (main_loop env fuel w s).world.trace = w.trace ++ evs ∧
      (after_sigint evs).countP Event.isDq ≤ s.bufsize - 1 ∧
      (after_sigint evs).countP Event.isFrame ≤ s.bufsize := by
  constructor
  · cases fuel <;> simp [main_loop]
  · obtain ⟨evs, ht, -, hd, hf, -⟩ := main_loop_summary env fuel w s
    exact ⟨evs, ht, hd, hf⟩

theorem ring_events_shape (x info : v4l2_buffer) (r : DqReply) (a len : Nat) (ok : Bool)
    (sg1 sg2 : List Int) (rp : List Event)
    (hrp : rp = [] ∨ ∃ el fr fps, rp = [Event.report el fr fps]) :
    ring_events (Event.dqbuf x r :: List.map Event.signal sg1 ++
      Event.frame a len :: List.map Event.signal sg2 ++ Event.qbuf info ok :: rp)
    = [Event.dqbuf x r, Event.frame a len, Event.qbuf info ok] := by
  have e : Event.dqbuf x r :: List.map Event.signal sg1 ++
      Event.frame a len :: List.map Event.signal sg2 ++ Event.qbuf info ok :: rp
      = [Event.dqbuf x r] ++ (List.map Event.signal sg1 ++
        ([Event.frame a len] ++ (List.map Event.signal sg2 ++ ([Event.qbuf info ok] ++ rp)))) := by
    simp
  rw [e]
  simp only [ring_events_append, ring_events_signals]
  rcases hrp with rfl | ⟨el, fr, fps, rfl⟩ <;> rfl

/-- Witness for C5: on the ring of a simulated device with 8 buffers, a wait interrupted at
loop position 5. -/
theorem streaming_interrupted_returns_one_witness :
    ∃ w1 evs, streaming_loop sim 3 5 (after_init (sim_start [])).1 (after_init (sim_start [])).2
        = Outcome.ret w1 ((after_init (sim_start [])).2, 1) ∧
      w1.trace = (after_init (sim_start [])).1.trace ++ evs ∧
      ring_events evs = [Event.dqbuf
        { index := 5, type := 1, memory := 1, length := 4096, offset := 20480 }
        (DqReply.fail EINTR)] ∧
      reports_of evs = [] :=
  streaming_interrupted_returns_one sim 2 5 (after_init (sim_start [])).1
    (after_init (sim_start [])).2
    { info := { index := 5, type := 1, memory := 1, length := 4096, offset := 20480 },
      buffer := sim_base + 20480, length := 4096 }
    (by decide) (by decide)

/-- C6. Whatever the outcome of the delivery (the handles returned by the display calls
are unconstrained, a `NULL` image or texture included), an iteration whose dequeue
succeeded on a device that accepts enqueues re-enqueues the dequeued descriptor after the
delivery, counts the frame once in the statistics, and the loop goes on with the next
position. -/
theorem streaming_releases_after_any_delivery {σ : Type} (env : Env σ) (n i : Nat)
    (w : World σ) (s : stream_t) (b : buffer_t) (info : v4l2_buffer)
    (hb : s.buffers[i]? = some b)
    (hd : (env.ioctl_dqbuf w.dev b.info).2 = DqReply.ok info)
    (hq : ∀ d r, (env.ioctl_qbuf d r).2.isSome = true) :
    ∃ w1 s1 evs, streaming_body env i w s = Step.next w1 s1 ∧
      streaming_loop env (n + 1) i w s = streaming_loop env n (i + 1) w1 s1 ∧
      w1.trace = w.trace ++ evs ∧
      ring_events evs = [Event.dqbuf b.info (DqReply.ok info),
        Event.frame b.buffer b.length, Event.qbuf info true] ∧
      s1.stats.frames = (s.stats.frames + 1) % 2 ^ 64 ∧
      s1.buffers.map region = s.buffers.map region ∧
      s1.bufsize = s.bufsize := by
  have hd2 : (dequeue env w b).2 = DqReply.ok info := hd
  have hq2 : ∀ x r, (enqueue env x r).2 ≠ none := fun x r h => by
    have h1 := hq x.dev r
    rw [← enqueue_reply, h] at h1
    cases h1
  have hnext : ∃ w1 s1, streaming_body env i w s = Step.next w1 s1 := by
    simp only [streaming_body, hb, hd2]
    split
    · rename_i hnone
      exact absurd hnone (hq2 _ _)
    · exact ⟨_, _, rfl⟩
  obtain ⟨w1, s1, hbody⟩ := hnext
  obtain ⟨b2, info2, sg1, sg2, rp, hb2, hd3, ht, hrp, -, hreg, hsz, hfr⟩ :=
    streaming_body_next env i w w1 s s1 hbody
  rw [hb] at hb2
  injection hb2 with hb2
  subst hb2
  rw [hd] at hd3
  injection hd3 with hd3
  subst hd3
  refine ⟨w1, s1, _, hbody, by simp [streaming_loop, hbody], ht, ?_, hfr, hreg, hsz⟩
  exact ring_events_shape _ _ _ _ _ _ sg1 sg2 rp hrp

/-- Witness for C6: the first frame fails to decode (`NULL` image and texture) on a
simulated device; the buffer is enqueued again and the loop goes on. -/
theorem streaming_releases_after_any_delivery_witness :
    ∃ w1 s1 evs,
      streaming_body sim 0 (after_init { sim_start fill_in_order with bad_frame := some 0 }).1
        (after_init { sim_start fill_in_order with bad_frame := some 0 }).2 = Step.next w1 s1 ∧
      streaming_loop sim 8 0 (after_init { sim_start fill_in_order with bad_frame := some 0 }).1
        (after_init { sim_start fill_in_order with bad_frame := some 0 }).2
        = streaming_loop sim 7 1 w1 s1 ∧
      w1.trace = (after_init { sim_start fill_in_order with bad_frame := some 0 }).1.trace
        ++ evs ∧
      ring_events evs = [Event.dqbuf
          { index := 0, type := 1, memory := 1, length := 4096, offset := 0 }
          (DqReply.ok { index := 0, type := 1, memory := 1, length := 4096, offset := 0 }),
        Event.frame sim_base 4096,
        Event.qbuf { index := 0, type := 1, memory := 1, length := 4096, offset := 0 } true] ∧
      s1.stats.frames = (0 + 1) % 2 ^ 64 ∧
      s1.buffers.map region
        = (after_init { sim_start fill_in_order with bad_frame := some 0 }).2.buffers.map
            region ∧
      s1.bufsize = 8 :=
  streaming_releases_after_any_delivery sim 7 0
    (after_init { sim_start fill_in_order with bad_frame := some 0 }).1
    (after_init { sim_start fill_in_order with bad_frame := some 0 }).2
    { info := { index := 0, type := 1, memory := 1, length := 4096, offset := 0 },
      buffer := sim_base, length := 4096 }
    { index := 0, type := 1, memory := 1, length := 4096, offset := 0 }
    (by decide) (by decide) (fun _ _ => rfl)

/-! ## Initialization -/

theorem query_buffer_trace {σ : Type} (env : Env σ) (w : World σ) (x : v4l2_buffer) :
    (query_buffer env w x).1.trace = w.trace ++ [Event.querybuf x (query_buffer env w x).2] :=
  rfl

theorem map_buffer_trace {σ : Type} (env : Env σ) (w : World σ) (fd : Int) (len off : Nat) :
    (map_buffer env w fd len off).1.trace
      = w.trace ++ [Event.mmap len off (map_buffer env w fd len off).2] := rfl

theorem zero_buffer_trace {σ : Type} (env : Env σ) (w : World σ) (addr len : Nat) :
    (zero_buffer env w addr len).trace = w.trace := rfl

theorem stream_on_trace {σ : Type} (env : Env σ) (w : World σ) (ty : Nat) :
    (stream_on env w ty).1.trace = w.trace ++ [Event.streamon ty (stream_on env w ty).2] :=
  rfl

theorem v4l2_initialize_body_ret {σ : Type} (env : Env σ) (i : Nat) (w w1 : World σ)
    (s s1 : stream_t) (h : v4l2_initialize_body env i w s = Outcome.ret w1 s1) :
    ∃ info addr info2,
      (env.ioctl_querybuf w.dev (indexed s.bufferinfo i)).2 = some info ∧
      w1.trace = w.trace ++ [Event.querybuf (indexed s.bufferinfo i) (some info),
        Event.mmap info.length info.offset (some addr), Event.streamon info.type true,
        Event.qbuf info true] ∧
      s1 = s.put i { info := info2, buffer := addr, length := info.length } ∧
      i < s.buffers.length := by
  unfold v4l2_initialize_body at h
  split at h
  · cases h
  · rename_i b hb
    simp only at h
    split at h
    · cases h
    · rename_i info hq
      split at h
      · cases h
      · rename_i addr hm
        split at h
        · cases h
        · rename_i hso
          split at h
          · cases h
          · rename_i info2 he
            injection h with hw hs
            subst hw hs
            refine ⟨info, addr, info2, hq, ?_, rfl, getElem?_lt _ _ _ hb⟩
            have hso2 : (stream_on env (zero_buffer env
                (map_buffer env (query_buffer env w (indexed s.bufferinfo i)).1 s.fd
                  info.length info.offset).1 addr info.length) info.type).2 = true := by
              simpa using hso
            rw [enqueue_trace, he, stream_on_trace, hso2, zero_buffer_trace, map_buffer_trace,
              hm, query_buffer_trace, hq]
            simp

theorem munmaps_of_append (a b : List Event) :
    munmaps_of (a ++ b) = munmaps_of a ++ munmaps_of b := by
  simp [munmaps_of]

theorem v4l2_initialize_body_trace {σ : Type} (env : Env σ) (i : Nat) (w : World σ)
    (s : stream_t) :
    munmaps_of (v4l2_initialize_body env i w s).world.trace = munmaps_of w.trace ∧
      ((v4l2_initialize_body env i w s).exited = none ∨
       (v4l2_initialize_body env i w s).exited = some EXIT_FAILURE) := by
  unfold v4l2_initialize_body
  split
  · exact ⟨rfl, Or.inl rfl⟩
  · simp only
    split
    · refine ⟨?_, Or.inr rfl⟩
      simp only [diep, Outcome.world, diep_world_trace, query_buffer_trace, munmaps_of_append]
      simp [munmaps_of]
    · rename_i info hq
      split
      · refine ⟨?_, Or.inr rfl⟩
        simp only [diep, Outcome.world, diep_world_trace, query_buffer_trace,
            map_buffer_trace, munmaps_of_append]
        simp [munmaps_of]
      · rename_i addr hm
        split
        · refine ⟨?_, Or.inr rfl⟩
          simp only [diep, Outcome.world, diep_world_trace, query_buffer_trace,
              map_buffer_trace, zero_buffer_trace, stream_on_trace, munmaps_of_append]
          simp [munmaps_of]
        · split
          · refine ⟨?_, Or.inr rfl⟩
            simp only [diep, Outcome.world, diep_world_trace, query_buffer_trace,
                map_buffer_trace, zero_buffer_trace, stream_on_trace, enqueue_trace,
                munmaps_of_append]
            simp [munmaps_of]
          · refine ⟨?_, Or.inl rfl⟩
            simp only [Outcome.world, query_buffer_trace,
                map_buffer_trace, zero_buffer_trace, stream_on_trace, enqueue_trace,
                munmaps_of_append]
            simp [munmaps_of]

theorem v4l2_initialize_loop_trace {σ : Type} (env : Env σ) (n : Nat) :
    ∀ (i : Nat) (w : World σ) (s : stream_t),
    munmaps_of (v4l2_initialize_loop env n i w s).world.trace = munmaps_of w.trace ∧
      ((v4l2_initialize_loop env n i w s).exited = none ∨
       (v4l2_initialize_loop env n i w s).exited = some EXIT_FAILURE) := by
  induction n with
  | zero => intro i w s; exact ⟨rfl, Or.inl rfl⟩
  | succ n ih =>
    intro i w s
    have hb := v4l2_initialize_body_trace env i w s
    unfold v4l2_initialize_loop
    cases hbody : v4l2_initialize_body env i w s with
    | ret w1 s1 =>
      rw [hbody] at hb
      simp only
      have h2 := ih (i + 1) w1 s1
      exact ⟨h2.1.trans hb.1, h2.2⟩
    | exit w1 c => rw [hbody] at hb; exact hb
    | fault w1 => rw [hbody] at hb; exact hb
    | nofuel w1 => rw [hbody] at hb; exact hb

theorem negotiate_trace {σ : Type} (env : Env σ) (w : World σ) (s : stream_t) :
    munmaps_of (negotiate env w s).world.trace = munmaps_of w.trace ∧
      ((negotiate env w s).exited = none ∨ (negotiate env w s).exited = some EXIT_FAILURE) := by
  unfold negotiate
  simp only
  split
  · exact ⟨by simp [diep, Outcome.world, diep_world_trace, munmaps_of], Or.inr rfl⟩
  · split
    · exact ⟨rfl, Or.inr rfl⟩
    · split
      · exact ⟨by simp [diep, Outcome.world, diep_world_trace, munmaps_of], Or.inr rfl⟩
      · split
        · exact ⟨by simp [diep, Outcome.world, diep_world_trace, munmaps_of], Or.inr rfl⟩
        · split
          · exact ⟨by simp [diep, Outcome.world, diep_world_trace, munmaps_of], Or.inr rfl⟩
          · exact ⟨rfl, Or.inl rfl⟩

theorem request_buffers_trace {σ : Type} (env : Env σ) (w : World σ) (s : stream_t) :
    munmaps_of (request_buffers env w s).world.trace = munmaps_of w.trace ∧
      ((request_buffers env w s).exited = none ∨
       (request_buffers env w s).exited = some EXIT_FAILURE) := by
  unfold request_buffers
  simp only
  split
  · exact ⟨by simp [diep, Outcome.world, diep_world_trace, munmaps_of, World.step],
      Or.inr rfl⟩
  · split
    · exact ⟨by simp [diep, Outcome.world, diep_world_trace, munmaps_of, World.step],
        Or.inr rfl⟩
    · exact ⟨by simp [Outcome.world, munmaps_of, World.step], Or.inl rfl⟩

/-- C9, as stated, fails: on a simulated device whose `VIDIOC_QUERYBUF` is rejected for
index 2, the process exits with the failure status while the mappings of descriptors 0
and 1 are still in place: no `munmap` was issued. -/
theorem initialize_failure_leaves_mappings :
    ( v4l2_initialize sim (world_start { sim_start [] with query_fail := some 2 })
        stream_zero).exited = some EXIT_FAILURE ∧
    mmaps_of ( v4l2_initialize sim (world_start { sim_start [] with query_fail := some 2 })
        stream_zero).world.trace = [(sim_base, 4096), (sim_base + 4096, 4096)] ∧
    munmaps_of ( v4l2_initialize sim (world_start { sim_start [] with query_fail := some 2 })
        stream_zero).world.trace = [] := by
  decide

/-- C9, amended. `v4l2_initialize` never unmaps: on every path, a failure of the buffer
query, of the mapping or of the enqueue at some index included, the unmap requests in the
trace are those that were there before the call, and when the call leaves the process it
does so with the failure status of `diep`; the descriptors mapped before the failure
stay mapped until the process is gone. -/
theorem initialize_never_unmaps {σ : Type} (env : Env σ) (w : World σ) (s : stream_t) :
    munmaps_of ( v4l2_initialize env w s).world.trace = munmaps_of w.trace ∧
      (( v4l2_initialize env w s).exited = none ∨
       ( v4l2_initialize env w s).exited = some EXIT_FAILURE) := by
  have h1 := negotiate_trace env w s
  unfold v4l2_initialize
  cases hn : negotiate env w s with
  | exit w1 c => rw [hn] at h1; exact h1
  | fault w1 => rw [hn] at h1; exact h1
  | nofuel w1 => rw [hn] at h1; exact h1
  | ret w1 s1 =>
    rw [hn] at h1
    have h2 := request_buffers_trace env w1 s1
    simp only
    cases hr : request_buffers env w1 s1 with
    | exit w2 c => rw [hr] at h2; exact ⟨h2.1.trans h1.1, h2.2⟩
    | fault w2 => rw [hr] at h2; exact ⟨h2.1.trans h1.1, h2.2⟩
    | nofuel w2 => rw [hr] at h2; exact ⟨h2.1.trans h1.1, h2.2⟩
    | ret w2 s2 =>
      rw [hr] at h2
      have h3 := v4l2_initialize_loop_trace env s2.bufrequest.count 0 w2 s2
      exact ⟨h3.1.trans (h2.1.trans h1.1), h3.2⟩

/-! ## Two defects -/

/-- C1. On a simulated device with all 8 buffers queued whose first dequeue, issued at loop
position 0, reports index 3 as filled, the frame view handed to the consumer is the
mapped region of the descriptor at position 0, not the region of descriptor 3, although
the enqueue that follows re-offers index 3. -/
theorem frame_view_follows_loop_position :
    (after_init (sim_start [SimDq.filled 3])).2.buffers.map region
      = [(sim_base, 4096), (sim_base + 4096, 4096), (sim_base + 8192, 4096),
         (sim_base + 12288, 4096), (sim_base + 16384, 4096), (sim_base + 20480, 4096),
         (sim_base + 24576, 4096), (sim_base + 28672, 4096)] ∧
    dequeued_of (streaming sim (after_init (sim_start [SimDq.filled 3])).1
        (after_init (sim_start [SimDq.filled 3])).2).world.trace = [3] ∧
    frames_of (streaming sim (after_init (sim_start [SimDq.filled 3])).1
        (after_init (sim_start [SimDq.filled 3])).2).world.trace = [(sim_base, 4096)] ∧
    (qbufs_of (streaming sim (after_init (sim_start [SimDq.filled 3])).1
        (after_init (sim_start [SimDq.filled 3])).2).world.trace).map (fun q => q.index)
      = [3] := by
  decide

/-- C10. On a simulated device that accepts `VIDIOC_STREAMOFF` for the capture buffer
type only, a run of `main` ended by `SIGINT` passes type 0 (the never assigned
`stream.buftype`) to the stream-off request, while every stream-on request carried the
capture type 1; the request is rejected, no buffer is unmapped, and the process exits
with the failure status. -/
theorem stream_off_type_differs :
    streamon_types (mstream_main sim 2 { sim_start [] with strict_off := true }).world.trace
      = [1, 1, 1, 1, 1, 1, 1, 1] ∧
    streamoff_types (mstream_main sim 2 { sim_start [] with strict_off := true }).world.trace
      = [0] ∧
    (mmaps_of (mstream_main sim 2 { sim_start [] with strict_off := true }).world.trace).length
      = 8 ∧
    munmaps_of (mstream_main sim 2 { sim_start [] with strict_off := true }).world.trace
      = [] ∧
    (mstream_main sim 2 { sim_start [] with strict_off := true }).exit_status
      = some EXIT_FAILURE ∧
    (sim.ioctl_streamoff { sim_start [] with strict_off := true }
      (V4L2_BUF_TYPE_VIDEO_CAPTURE : Int)).2 = true := by
  decide

/-! ## Statistics -/

theorem feed_append (a b : List Int) (w : World Sim) (s : stream_t) :
    feed (a ++ b) w s = feed b (feed a w s).1 (feed a w s).2 := by
  induction a generalizing w s with
  | nil => rfl
  | cons t a ih => exact ih _ _

theorem stat_step_report (t : Int) (w : World Sim) (s : stream_t)
    (h : s.stats.lastupdate ≠ t) :
    (statistics_update_frame sim (at_second t w) s).1.trace
      = w.trace ++ [Event.report (t - s.stats.begintime) ((s.stats.frames + 1) % 2 ^ 64)
          ((s.stats.timeframes + 1) % 2 ^ 64)] ∧
    (statistics_update_frame sim (at_second t w) s).2.stats
      = { frames := (s.stats.frames + 1) % 2 ^ 64, timeframes := 0,
          begintime := s.stats.begintime, lastupdate := t } := by
  simp [statistics_update_frame, sim, at_second, h]

theorem stat_step_quiet (t : Int) (w : World Sim) (s : stream_t)
    (h : s.stats.lastupdate = t) :
    (statistics_update_frame sim (at_second t w) s).1.trace
      = w.trace ∧
    (statistics_update_frame sim (at_second t w) s).2.stats
      = { frames := (s.stats.frames + 1) % 2 ^ 64,
          timeframes := (s.stats.timeframes + 1) % 2 ^ 64,
          begintime := s.stats.begintime, lastupdate := s.stats.lastupdate } := by
  simp [statistics_update_frame, sim, at_second, h]

theorem feed_invariant (x : Int) (l : List Int) :
    ∀ (w : World Sim) (s : stream_t), s.stats.lastupdate ≠ x → (∀ t ∈ l, t ≠ x) →
      (feed l w s).2.stats.lastupdate ≠ x ∧
      (feed l w s).2.stats.begintime = s.stats.begintime ∧
      (feed l w s).2.stats.frames % 2 ^ 64 = (s.stats.frames + l.length) % 2 ^ 64 := by
  induction l with
  | nil => intro w s h _; exact ⟨h, rfl, rfl⟩
  | cons t l ih =>
    intro w s h hl
    have ht : t ≠ x := hl t (List.mem_cons_self t l)
    have hl2 : ∀ u ∈ l, u ≠ x := fun u hu => hl u (List.mem_cons_of_mem t hu)
    simp only [feed]
    by_cases hc : s.stats.lastupdate = t
    · obtain ⟨-, hst⟩ := stat_step_quiet t w s hc
      obtain ⟨h1, h2, h3⟩ := ih
        (statistics_update_frame sim (at_second t w) s).1
        (statistics_update_frame sim (at_second t w) s).2
        (by rw [hst]; exact h) hl2
      refine ⟨h1, by rw [h2, hst], ?_⟩
      rw [h3, hst]
      simp only [List.length_cons]
      omega
    · obtain ⟨-, hst⟩ := stat_step_report t w s hc
      obtain ⟨h1, h2, h3⟩ := ih
        (statistics_update_frame sim (at_second t w) s).1
        (statistics_update_frame sim (at_second t w) s).2
        (by rw [hst]; exact ht) hl2
      refine ⟨h1, by rw [h2, hst], ?_⟩
      rw [h3, hst]
      simp only [List.length_cons]
      omega

theorem feed_quiet (t : Int) (k : Nat) :
    ∀ (w : World Sim) (s : stream_t), s.stats.lastupdate = t →
      (feed (List.replicate k t) w s).1.trace = w.trace ∧
      (feed (List.replicate k t) w s).2.stats.lastupdate = t ∧
      (feed (List.replicate k t) w s).2.stats.begintime = s.stats.begintime ∧
      (feed (List.replicate k t) w s).2.stats.frames % 2 ^ 64
        = (s.stats.frames + k) % 2 ^ 64 ∧
      (feed (List.replicate k t) w s).2.stats.timeframes % 2 ^ 64
        = (s.stats.timeframes + k) % 2 ^ 64 := by
  induction k with
  | zero => intro w s h; exact ⟨rfl, h, rfl, rfl, rfl⟩
  | succ k ih =>
    intro w s h
    obtain ⟨htr, hst⟩ := stat_step_quiet t w s h
    obtain ⟨h1, h2, h3, h4, h5⟩ := ih
      (statistics_update_frame sim (at_second t w) s).1
      (statistics_update_frame sim (at_second t w) s).2
      (by rw [hst]; exact h)
    rw [List.replicate_succ]
    simp only [feed]
    refine ⟨h1.trans htr, h2, by rw [h3, hst], ?_, ?_⟩
    · rw [h4, hst]
      simp only
      omega
    · rw [h5, hst]
      simp only
      omega

/-- C7, as stated, fails: from the statistics set up by `main` at second 5, a feed of 7
calls within second 5 alone prints no report at all, and the same feed followed by a call
in second 6 prints one report, whose frames-per-second value is 8. -/
theorem first_second_report_counts_eight :
    reports_of (feed [5, 5, 5, 5, 5, 5, 5] (world_start (sim_start [])) (main_stats 5)).1.trace
      = [] ∧
    reports_of (feed [5, 5, 5, 5, 5, 5, 5, 6] (world_start (sim_start []))
      (main_stats 5)).1.trace = [(1, 8, 8)] := by
  decide

/-- C7, amended. From the statistics set up by `main` at second `t0`, take any feed in
which the 7 calls of a second `s` other than the start second come after calls in other
seconds only and are followed by a call in another second `s2`.  The first call within
`s` prints the one report of the calls of `s` (it closes the window before `s`); the
call in `s2` prints exactly one report, the report for second `s`, with
frames-per-second value 7; and the rolling counter is 0 right after that report. -/
theorem report_for_later_second (t0 s s2 : Int) (pre : List Int) (w : World Sim)
    (h0 : t0 ≠ s) (hpre : ∀ t ∈ pre, t ≠ s) (hs : s2 ≠ s) :
    (∃ r, reports_of (feed (pre ++ List.replicate 7 s) w (main_stats t0)).1.trace
        = reports_of (feed pre w (main_stats t0)).1.trace ++ [r]) ∧
    reports_of (feed (pre ++ List.replicate 7 s ++ [s2]) w (main_stats t0)).1.trace
      = reports_of (feed (pre ++ List.replicate 7 s) w (main_stats t0)).1.trace
        ++ [(s2 - t0, (pre.length + 8) % 2 ^ 64, 7)] ∧
    (feed (pre ++ List.replicate 7 s ++ [s2]) w (main_stats t0)).2.stats.timeframes = 0 := by
  obtain ⟨hl, hb, hf⟩ := feed_invariant s pre w (main_stats t0) h0 hpre
  have hb0 : (main_stats t0).stats.begintime = t0 := rfl
  have hf0 : (main_stats t0).stats.frames = 0 := rfl
  rw [hb0] at hb
  rw [hf0] at hf
  have hB : feed (pre ++ List.replicate 7 s ++ [s2]) w (main_stats t0)
      = statistics_update_frame sim
          (at_second s2 (feed (pre ++ List.replicate 7 s) w (main_stats t0)).1)
          (feed (pre ++ List.replicate 7 s) w (main_stats t0)).2 := by
    rw [feed_append]
    rfl
  have hA : feed (pre ++ List.replicate 7 s) w (main_stats t0)
      = feed (List.replicate 6 s)
          (statistics_update_frame sim (at_second s (feed pre w (main_stats t0)).1)
            (feed pre w (main_stats t0)).2).1
          (statistics_update_frame sim (at_second s (feed pre w (main_stats t0)).1)
            (feed pre w (main_stats t0)).2).2 := by
    rw [feed_append]
    rfl
  rw [hB, hA]
  generalize feed pre w (main_stats t0) = a at hl hb hf
  obtain ⟨wa, sa⟩ := a
  simp only at hl hb hf
  -- the first call within second s prints a report and restarts the counter
  obtain ⟨ht1, hs1⟩ := stat_step_report s wa sa hl
  -- the six other calls within second s print nothing
  obtain ⟨ht6, hl6, hb6, hf6, hc6⟩ := feed_quiet s 6
    (statistics_update_frame sim (at_second s wa) sa).1
    (statistics_update_frame sim (at_second s wa) sa).2 (by rw [hs1])
  rw [hs1] at hb6 hf6 hc6
  simp only at hb6 hf6 hc6
  -- the call in second s2 prints the report for s
  obtain ⟨ht8, hs8⟩ := stat_step_report s2
    (feed (List.replicate 6 s) (statistics_update_frame sim (at_second s wa) sa).1
      (statistics_update_frame sim (at_second s wa) sa).2).1
    (feed (List.replicate 6 s) (statistics_update_frame sim (at_second s wa) sa).1
      (statistics_update_frame sim (at_second s wa) sa).2).2
    (by rw [hl6]; exact fun e => hs e.symm)
  refine ⟨⟨(s - sa.stats.begintime, (sa.stats.frames + 1) % 2 ^ 64,
    (sa.stats.timeframes + 1) % 2 ^ 64), ?_⟩, ?_, ?_⟩
  · rw [ht6, ht1, reports_of_append]
    rfl
  · rw [ht8, reports_of_append, hb6, hb]
    have e1 : ((feed (List.replicate 6 s) (statistics_update_frame sim (at_second s wa) sa).1
        (statistics_update_frame sim (at_second s wa) sa).2).2.stats.frames + 1) % 2 ^ 64
        = (pre.length + 8) % 2 ^ 64 := by
      omega
    have e2 : ((feed (List.replicate 6 s) (statistics_update_frame sim (at_second s wa) sa).1
        (statistics_update_frame sim (at_second s wa) sa).2).2.stats.timeframes + 1) % 2 ^ 64
        = 7 := by
      omega
    rw [e1, e2]
    rfl
  · rw [hs8]

/-- Witness for C7: start at second 5, three calls in second 5, seven calls in second 6,
one call in second 7. -/
theorem report_for_later_second_witness :
    (∃ r, reports_of (feed ([5, 5, 5] ++ List.replicate 7 6) (world_start (sim_start []))
          (main_stats 5)).1.trace
        = reports_of (feed [5, 5, 5] (world_start (sim_start [])) (main_stats 5)).1.trace
          ++ [r]) ∧
    reports_of (feed ([5, 5, 5] ++ List.replicate 7 6 ++ [7]) (world_start (sim_start []))
        (main_stats 5)).1.trace
      = reports_of (feed ([5, 5, 5] ++ List.replicate 7 6) (world_start (sim_start []))
          (main_stats 5)).1.trace
        ++ [(7 - 5, (([5, 5, 5] : List Int).length + 8) % 2 ^ 64, 7)] ∧
    (feed ([5, 5, 5] ++ List.replicate 7 6 ++ [7]) (world_start (sim_start []))
      (main_stats 5)).2.stats.timeframes = 0 :=
  report_for_later_second 5 6 7 [5, 5, 5] (world_start (sim_start []))
    (by decide) (by decide) (by decide)

/-! ## The ring after initialization -/

theorem qbufs_of_append (a b : List Event) :
    qbufs_of (a ++ b) = qbufs_of a ++ qbufs_of b := by
  simp [qbufs_of]

theorem querybufs_of_append (a b : List Event) :
    querybufs_of (a ++ b) = querybufs_of a ++ querybufs_of b := by
  simp [querybufs_of]

theorem mmaps_of_append (a b : List Event) :
    mmaps_of (a ++ b) = mmaps_of a ++ mmaps_of b := by
  simp [mmaps_of]

theorem granted_of_append (a b : List Event) :
    granted_of (a ++ b) = granted_of a ++ granted_of b := by
  simp [granted_of]

theorem take_succ_map_set (l : List buffer_t) (i : Nat) (b : buffer_t) (h : i < l.length) :
    ((l.set i b).map region).take (i + 1) = (l.map region).take i ++ [region b] := by
  rw [List.take_succ]
  have h0 : (l.set i b).take i = l.take i := by
    apply List.ext_getElem?
    intro k
    rw [List.getElem?_take, List.getElem?_take]
    split
    · rw [List.getElem?_set_ne (by omega)]
    · rfl
  have h1 : ((l.set i b).map region).take i = (l.map region).take i := by
    rw [← List.map_take, ← List.map_take, h0]
  have h2 : ((l.set i b).map region)[i]? = some (region b) := by
    simp [List.getElem?_map, List.getElem?_set, h]
  rw [h1, h2]
  rfl

theorem v4l2_initialize_loop_ret {σ : Type} (env : Env σ) (n : Nat) :
    ∀ (i : Nat) (w w1 : World σ) (s s1 : stream_t),
    v4l2_initialize_loop env n i w s = Outcome.ret w1 s1 → i ≤ s.buffers.length →
    ∃ evs, w1.trace = w.trace ++ evs ∧
      qbufs_of evs = querybufs_of evs ∧
      (mmaps_of evs).map Prod.snd = (querybufs_of evs).map (fun q => q.length) ∧
      evs.countP Event.isDq = 0 ∧ munmaps_of evs = [] ∧ granted_of evs = [] ∧
      s1.buffers.length = s.buffers.length ∧ s1.bufsize = s.bufsize ∧
      s1.bufrequest = s.bufrequest ∧
      (s1.buffers.map region).take (i + n) = (s.buffers.map region).take i ++ mmaps_of evs ∧
      i + n ≤ s.buffers.length := by
  induction n with
  | zero =>
    intro i w w1 s s1 h hi
    simp only [v4l2_initialize_loop] at h
    injection h with hw hs
    subst hw hs
    exact ⟨[], by simp, rfl, rfl, rfl, rfl, rfl, rfl, rfl, rfl, by simp [mmaps_of], hi⟩
  | succ n ih =>
    intro i w w1 s s1 h hi
    cases hbody : v4l2_initialize_body env i w s with
    | ret w2 s2 =>
      obtain ⟨info, addr, info2, hq, ht, hs2, hlt⟩ :=
        v4l2_initialize_body_ret env i w w2 s s2 hbody
      simp only [v4l2_initialize_loop, hbody] at h
      have hlen2 : s2.buffers.length = s.buffers.length := by
        rw [hs2, put_buffers, List.length_set]
      obtain ⟨e2, ht2, hq2, hm2, hd2, hu2, hg2, hl2, hb2, hr2, hreg2, hle2⟩ :=
        ih (i + 1) w2 w1 s2 s1 h (by rw [hlen2]; omega)
      refine ⟨_, by rw [ht2, ht, List.append_assoc], ?_, ?_, ?_, ?_, ?_, ?_, ?_, ?_, ?_, ?_⟩
      · rw [qbufs_of_append, querybufs_of_append, hq2]; rfl
      · rw [mmaps_of_append, querybufs_of_append, List.map_append, List.map_append, hm2]; rfl
      · rw [List.countP_append, hd2]; rfl
      · rw [munmaps_of_append, hu2]; rfl
      · rw [granted_of_append, hg2]; rfl
      · rw [hl2, hlen2]
      · rw [hb2, hs2, put_bufsize]
      · rw [hr2, hs2]; rfl
      · have e : i + (n + 1) = i + 1 + n := by omega
        rw [e, hreg2, hs2, put_buffers, take_succ_map_set _ _ _ hlt, mmaps_of_append,
          List.append_assoc]
        rfl
      · rw [hlen2] at hle2; omega
    | exit w2 c => simp [v4l2_initialize_loop, hbody] at h
    | fault w2 => simp [v4l2_initialize_loop, hbody] at h
    | nofuel w2 => simp [v4l2_initialize_loop, hbody] at h

theorem v4l2_initialize_loop_indices {σ : Type} (env : Env σ)
    (hidx : ∀ d x r, (env.ioctl_querybuf d x).2 = some r → r.index = x.index) (n : Nat) :
    ∀ (i : Nat) (w w1 : World σ) (s s1 : stream_t),
    v4l2_initialize_loop env n i w s = Outcome.ret w1 s1 → i + n ≤ 2 ^ 32 →
    (qbufs_of w1.trace).map (fun q => q.index)
      = (qbufs_of w.trace).map (fun q => q.index) ++ List.range' i n := by
  induction n with
  | zero =>
    intro i w w1 s s1 h _
    simp only [v4l2_initialize_loop] at h
    injection h with hw hs
    subst hw
    simp
  | succ n ih =>
    intro i w w1 s s1 h hi
    cases hbody : v4l2_initialize_body env i w s with
    | ret w2 s2 =>
      obtain ⟨info, addr, info2, hq, ht, hs2, hlt⟩ :=
        v4l2_initialize_body_ret env i w w2 s s2 hbody
      simp only [v4l2_initialize_loop, hbody] at h
      have h2 := ih (i + 1) w2 w1 s2 s1 h (by omega)
      have hi2 : info.index = i := by
        rw [hidx _ _ _ hq]
        simp only [indexed]
        exact Nat.mod_eq_of_lt (by omega)
      rw [h2, ht, qbufs_of_append, List.map_append, List.append_assoc, List.range'_succ]
      simp [qbufs_of, hi2]
    | exit w2 c => simp [v4l2_initialize_loop, hbody] at h
    | fault w2 => simp [v4l2_initialize_loop, hbody] at h
    | nofuel w2 => simp [v4l2_initialize_loop, hbody] at h

theorem negotiate_ret {σ : Type} (env : Env σ) (w w1 : World σ) (s s1 : stream_t)
    (h : negotiate env w s = Outcome.ret w1 s1) :
    w1.trace = w.trace ∧ s1.buffers = s.buffers ∧ s1.bufsize = s.bufsize := by
  unfold negotiate at h
  simp only at h
  split at h
  · cases h
  · split at h
    · cases h
    · split at h
      · cases h
      · split at h
        · cases h
        · split at h
          · cases h
          · injection h with hw hs
            subst hw hs
            exact ⟨rfl, rfl, rfl⟩

theorem request_buffers_ret {σ : Type} (env : Env σ) (w w1 : World σ) (s s1 : stream_t)
    (h : request_buffers env w s = Outcome.ret w1 s1) :
    (∃ req0, w1.trace = w.trace ++ [Event.reqbufs req0 (some s1.bufrequest)]) ∧
    s1.bufsize = s1.bufrequest.count ∧
    s1.buffers = List.replicate s1.bufrequest.count buffer_zero := by
  unfold request_buffers at h
  simp only at h
  split at h
  · cases h
  · rename_i req hreq
    split at h
    · cases h
    · injection h with hw hs
      subst hw hs
      refine ⟨⟨⟨V4L2_BUF_TYPE_VIDEO_CAPTURE, V4L2_MEMORY_MMAP, 8⟩, ?_⟩, rfl, rfl⟩
      simp only [World.step, hreq]

theorem v4l2_initialize_ret {σ : Type} (env : Env σ) (w w1 : World σ) (s s1 : stream_t)
    (h : v4l2_initialize env w s = Outcome.ret w1 s1) :
    s1.bufsize = s1.bufrequest.count ∧ s1.buffers.length = s1.bufrequest.count ∧
    ∃ w0 s0 evs, v4l2_initialize_loop env s1.bufrequest.count 0 w0 s0 = Outcome.ret w1 s1 ∧
      w1.trace = w.trace ++ evs ∧ qbufs_of w0.trace = qbufs_of w.trace ∧
      granted_of evs = [s1.bufrequest.count] ∧
      qbufs_of evs = querybufs_of evs ∧
      s1.buffers.map region = mmaps_of evs ∧
      s1.buffers.map (fun b => b.length) = (querybufs_of evs).map (fun q => q.length) ∧
      evs.countP Event.isDq = 0 ∧ munmaps_of evs = [] := by
  unfold v4l2_initialize at h
  cases hn : negotiate env w s with
  | exit wa c => simp [hn] at h
  | fault wa => simp [hn] at h
  | nofuel wa => simp [hn] at h
  | ret wa sa =>
    obtain ⟨hta, -, -⟩ := negotiate_ret env w wa s sa hn
    simp only [hn] at h
    cases hr : request_buffers env wa sa with
    | exit wb c => simp [hr] at h
    | fault wb => simp [hr] at h
    | nofuel wb => simp [hr] at h
    | ret wb sb =>
      obtain ⟨⟨req0, htb⟩, hszb, hbufb⟩ := request_buffers_ret env wa wb sa sb hr
      simp only [hr] at h
      have hlenb : sb.buffers.length = sb.bufrequest.count := by
        rw [hbufb, List.length_replicate]
      obtain ⟨e, ht, hq, hm, hd, hu, hg, hl, hb, hrq, hreg, -⟩ :=
        v4l2_initialize_loop_ret env sb.bufrequest.count 0 wb w1 sb s1 h (Nat.zero_le _)
      have hlen1 : s1.buffers.length = s1.bufrequest.count := by
        rw [hl, hrq, hlenb]
      have hregion : s1.buffers.map region = mmaps_of e := by
        have e1 : (s1.buffers.map region).take (0 + sb.bufrequest.count)
            = s1.buffers.map region := by
          apply List.take_of_length_le
          rw [List.length_map, hl, hlenb]
          omega
        rw [e1] at hreg
        simpa using hreg
      refine ⟨by rw [hb, hrq, hszb], hlen1, wb, sb, Event.reqbufs req0 (some sb.bufrequest) :: e,
        by rw [hrq]; exact h, ?_, ?_, ?_, ?_, ?_, ?_, ?_, ?_⟩
      · rw [ht, htb, hta]; simp
      · rw [htb, hta, qbufs_of_append]; simp [qbufs_of]
      · have : granted_of (Event.reqbufs req0 (some sb.bufrequest) :: e)
            = sb.bufrequest.count :: granted_of e := rfl
        rw [this, hg, hrq]
      · exact hq
      · exact hregion
      · have h3 := congrArg (List.map Prod.snd) hregion
        rw [List.map_map] at h3
        have h4 : (Prod.snd ∘ region) = fun b : buffer_t => b.length := rfl
        rw [h4] at h3
        have h5 : querybufs_of (Event.reqbufs req0 (some sb.bufrequest) :: e)
            = querybufs_of e := rfl
        have h6 : mmaps_of (Event.reqbufs req0 (some sb.bufrequest) :: e) = mmaps_of e := rfl
        rw [h3, h5, hm]
      · have : List.countP Event.isDq (Event.reqbufs req0 (some sb.bufrequest) :: e)
            = List.countP Event.isDq e := by
          simp [List.countP_cons, Event.isDq]
        rw [this, hd]
      · exact hu

theorem sim_querybuf_index (d : Sim) (x r : v4l2_buffer)
    (h : (sim.ioctl_querybuf d x).2 = some r) : r.index = x.index := by
  simp only [sim] at h
  split at h
  · cases h
  · injection h with h
    subst h
    rfl

/-- C3. When `v4l2_initialize` returns (the device accepted every set-up request) with
`count` buffers granted, on a device whose `VIDIOC_QUERYBUF` answers for the index it is
asked about: `bufsize` is `count`; there are exactly `count` descriptors; the descriptors
offered by `VIDIOC_QBUF` are those the device reported, with indices 0..count-1, each
offered exactly once; every descriptor is mapped, at the address `mmap` returned, with
its device-reported length; and nothing was dequeued or unmapped, so every descriptor is
left queued. -/
theorem initialize_queues_every_descriptor {σ : Type} (env : Env σ) (w w1 : World σ)
    (s s1 : stream_t)
    (h : v4l2_initialize env w s = Outcome.ret w1 s1)
    (hu32 : s1.bufrequest.count < 2 ^ 32)
    (hidx : ∀ d x r, (env.ioctl_querybuf d x).2 = some r → r.index = x.index) :
    s1.bufsize = s1.bufrequest.count ∧ s1.buffers.length = s1.bufrequest.count ∧
    ∃ evs, w1.trace = w.trace ++ evs ∧
      granted_of evs = [s1.bufrequest.count] ∧
      (qbufs_of evs).map (fun q => q.index) = List.range s1.bufrequest.count ∧
      qbufs_of evs = querybufs_of evs ∧
      s1.buffers.map region = mmaps_of evs ∧
      s1.buffers.map (fun b => b.length) = (querybufs_of evs).map (fun q => q.length) ∧
      evs.countP Event.isDq = 0 ∧ munmaps_of evs = [] := by
  obtain ⟨hsz, hlen, w0, s0, evs, hloop, ht, hq0, hg, hq, hreg, hlens, hdq, hun⟩ :=
    v4l2_initialize_ret env w w1 s s1 h
  refine ⟨hsz, hlen, evs, ht, hg, ?_, hq, hreg, hlens, hdq, hun⟩
  have hi := v4l2_initialize_loop_indices env hidx s1.bufrequest.count 0 w0 w1 s0 s1 hloop
    (by omega)
  rw [ht, qbufs_of_append, List.map_append, hq0] at hi
  have hi2 := List.append_cancel_left hi
  rw [hi2, List.range_eq_range']

/-- Witness for C3: the simulated device granting 8 buffers of 4096 bytes. -/
theorem initialize_queues_every_descriptor_witness :
    (after_init (sim_start [])).2.bufsize = 8 ∧
    (after_init (sim_start [])).2.buffers.length = 8 ∧
    ∃ evs, ( v4l2_initialize sim (world_start (sim_start [])) stream_zero).world.trace
        = (world_start (sim_start [])).trace ++ evs ∧
      granted_of evs = [8] ∧
      (qbufs_of evs).map (fun q => q.index) = List.range 8 ∧
      qbufs_of evs = querybufs_of evs ∧
      (after_init (sim_start [])).2.buffers.map region = mmaps_of evs ∧
      (after_init (sim_start [])).2.buffers.map (fun b => b.length)
        = (querybufs_of evs).map (fun q => q.length) ∧
      evs.countP Event.isDq = 0 ∧ munmaps_of evs = [] :=
  initialize_queues_every_descriptor sim (world_start (sim_start []))
    ( v4l2_initialize sim (world_start (sim_start [])) stream_zero).world
    stream_zero (after_init (sim_start [])).2 rfl (by decide) sim_querybuf_index

/-! ## Teardown -/

theorem streaming_calls_ret {σ : Type} (env : Env σ) (k : Nat) :
    ∀ (w w2 : World σ) (s s2 : stream_t),
    streaming_calls env k w s = Outcome.ret w2 s2 →
    s2.bufsize = s.bufsize ∧ s2.buffers.map region = s.buffers.map region := by
  induction k with
  | zero =>
    intro w w2 s s2 h
    simp only [streaming_calls] at h
    injection h with hw hs
    subst hs
    exact ⟨rfl, rfl⟩
  | succ k ih =>
    intro w w2 s s2 h
    cases hst : streaming env w s with
    | ret w1 r =>
      have hst2 : streaming_loop env s.bufsize 0 w s = Outcome.ret w1 (r.1, r.2) := hst
      obtain ⟨h1, h2⟩ := streaming_loop_ret env s.bufsize 0 w w1 s r.1 r.2 hst2
      simp only [streaming_calls, hst] at h
      obtain ⟨h3, h4⟩ := ih w1 w2 r.1 s2 h
      exact ⟨h3.trans h1, h4.trans h2⟩
    | exit w1 c => simp [streaming_calls, hst] at h
    | fault w1 => simp [streaming_calls, hst] at h
    | nofuel w1 => simp [streaming_calls, hst] at h

theorem munmaps_of_unmaps (l : List (Nat × Nat)) :
    munmaps_of (l.map fun r => Event.munmap r.1 r.2) = l := by
  induction l with
  | nil => rfl
  | cons a l ih =>
    have : munmaps_of (List.map (fun r => Event.munmap r.1 r.2) (a :: l))
        = (a.1, a.2) :: munmaps_of (List.map (fun r => Event.munmap r.1 r.2) l) := rfl
    rw [this, ih]

theorem v4l2_cleanup_loop_run {σ : Type} (env : Env σ) (n : Nat) :
    ∀ (i : Nat) (w : World σ) (s : stream_t), i + n ≤ s.buffers.length →
    ∃ w1, v4l2_cleanup_loop env n i w s = Outcome.ret w1 () ∧
      w1.trace = w.trace ++
        (((s.buffers.map region).drop i).take n).map fun r => Event.munmap r.1 r.2 := by
  induction n with
  | zero => intro i w s _; exact ⟨w, rfl, by simp⟩
  | succ n ih =>
    intro i w s hi
    have hlt : i < s.buffers.length := by omega
    have hb : s.buffers[i]? = some s.buffers[i] := List.getElem?_eq_getElem hlt
    obtain ⟨w1, hrun, ht⟩ := ih (i + 1)
      (w.step (env.munmap w.dev s.buffers[i].buffer s.buffers[i].length)
        (Event.munmap s.buffers[i].buffer s.buffers[i].length)) s (by omega)
    refine ⟨w1, by simp only [v4l2_cleanup_loop, hb]; exact hrun, ?_⟩
    have hd : (s.buffers.map region).drop i
        = region s.buffers[i] :: (s.buffers.map region).drop (i + 1) := by
      rw [List.drop_eq_getElem_cons (by rw [List.length_map]; exact hlt)]
      simp
    rw [ht, hd, List.take_succ_cons, List.map_cons]
    simp [World.step, region]

/-- C8. After `v4l2_initialize` returned and any number of `streaming` calls returned,
`v4l2_cleanup`, when its stream-off request is accepted, returns after unmapping every
descriptor of the ring exactly once, in order, with the address and the length recorded
at initialization, which are those of the `mmap` calls of the initialization; it unmaps
nothing else, and the number of unmaps is the number of buffers granted. -/
theorem cleanup_unmaps_every_descriptor_once {σ : Type} (env : Env σ) (k : Nat)
    (w w1 w2 : World σ) (s s1 s2 : stream_t)
    (hinit : v4l2_initialize env w s = Outcome.ret w1 s1)
    (hrun : streaming_calls env k w1 s1 = Outcome.ret w2 s2)
    (hoff : (env.ioctl_streamoff w2.dev s2.buftype).2 = true) :
    ∃ ievs w3 evs, w1.trace = w.trace ++ ievs ∧
      v4l2_cleanup env w2 s2 = Outcome.ret w3 () ∧
      w3.trace = w2.trace ++ evs ∧
      munmaps_of evs = s1.buffers.map region ∧
      munmaps_of evs = mmaps_of ievs ∧
      (munmaps_of evs).length = s1.bufrequest.count := by
  obtain ⟨hsz, hlen, -, -, ievs, -, ht, -, -, -, hreg, -, -, -⟩ :=
    v4l2_initialize_ret env w w1 s s1 hinit
  obtain ⟨hsz2, hreg2⟩ := streaming_calls_ret env k w1 w2 s1 s2 hrun
  have hlen2 : s2.buffers.length = s1.buffers.length := by
    have := congrArg List.length hreg2
    simpa using this
  obtain ⟨w3, hloop, ht3⟩ := v4l2_cleanup_loop_run env s2.bufsize 0
    (w2.step (env.ioctl_streamoff w2.dev s2.buftype).1 (Event.streamoff s2.buftype true)) s2
    (by rw [hsz2, hsz, hlen2, hlen]; omega)
  have htake : ((s2.buffers.map region).drop 0).take s2.bufsize = s1.buffers.map region := by
    rw [List.drop_zero, hreg2]
    apply List.take_of_length_le
    rw [List.length_map, hsz2, hsz, hlen]
  rw [htake] at ht3
  have hm : munmaps_of (Event.streamoff s2.buftype true ::
      (s1.buffers.map region).map fun r => Event.munmap r.1 r.2) = s1.buffers.map region :=
    munmaps_of_unmaps (s1.buffers.map region)
  refine ⟨ievs, w3, Event.streamoff s2.buftype true ::
      (s1.buffers.map region).map fun r => Event.munmap r.1 r.2, ht, ?_, ?_, hm, ?_, ?_⟩
  · unfold v4l2_cleanup
    simp only [hoff]
    exact hloop
  · rw [ht3]
    simp [World.step]
  · rw [hm, hreg]
  · rw [hm, List.length_map, hlen]

/-- Witness for C8: the simulated device with 8 buffers, two `streaming` calls (two frames,
then interrupted waits), then the teardown. -/
theorem cleanup_unmaps_every_descriptor_once_witness :
    ∃ ievs w3 evs,
      (ring_world (sim_start [SimDq.filled 0, SimDq.filled 1])).trace
        = (world_start (sim_start [SimDq.filled 0, SimDq.filled 1])).trace ++ ievs ∧
      v4l2_cleanup sim (played_world 2 (sim_start [SimDq.filled 0, SimDq.filled 1]))
        (played_stream 2 (sim_start [SimDq.filled 0, SimDq.filled 1])) = Outcome.ret w3 () ∧
      w3.trace = (played_world 2 (sim_start [SimDq.filled 0, SimDq.filled 1])).trace ++ evs ∧
      munmaps_of evs
        = (ring_stream (sim_start [SimDq.filled 0, SimDq.filled 1])).buffers.map region ∧
      munmaps_of evs = mmaps_of ievs ∧
      (munmaps_of evs).length
        = (ring_stream (sim_start [SimDq.filled 0, SimDq.filled 1])).bufrequest.count :=
  cleanup_unmaps_every_descriptor_once sim 2
    (world_start (sim_start [SimDq.filled 0, SimDq.filled 1]))
    (ring_world (sim_start [SimDq.filled 0, SimDq.filled 1]))
    (played_world 2 (sim_start [SimDq.filled 0, SimDq.filled 1]))
    stream_zero
    (ring_stream (sim_start [SimDq.filled 0, SimDq.filled 1]))
    (played_stream 2 (sim_start [SimDq.filled 0, SimDq.filled 1]))
    rfl rfl rfl
